import Mathlib

/-! gstplay: pipeline description synthesis, locator resolution, option parsing, teardown.

A shallow embedding of `src/main.c`.  C strings are Lean `String`s, `sprintf` with a
`%s` format is concatenation of the literal pieces of the format with the arguments, the
`int` variables are integers (flag words are 32-bit patterns kept in `Nat`), the read
loop of the preloading runs on fuel over a stream that may never report its end, and the
calls into the framework, the GUI and the reactor loop are recorded in an effect trace.
-/

set_option maxRecDepth 100000

namespace Gstplay

/-! ## C library -/

/-- Search of `strstr`, on character lists: does `needle` occur in the list? -/
def strstr_list (needle : List Char) : List Char → Bool
  | [] => needle.isPrefixOf []
  | c :: cs => needle.isPrefixOf (c :: cs) || strstr_list needle cs

/-- The test `strstr(haystack, needle) != NULL`. -/
def strstr (haystack needle : String) : Bool :=
  strstr_list needle.data haystack.data

/-- Number of positions of a character list at which `pat` occurs. -/
def count_list (pat : List Char) : List Char → Nat
  | [] => if pat.isPrefixOf [] then 1 else 0
  | c :: cs => (if pat.isPrefixOf (c :: cs) then 1 else 0) + count_list pat cs

/-- Number of occurrences of `pat` in `s`. -/
def occurrences (pat s : String) : Nat :=
  count_list pat.data s.data

/-- The 32-bit complement `~x` of an `int` bit pattern. -/
def int_not (x : Nat) : Nat :=
  (2 ^ 32 - 1 - x % 2 ^ 32) % 2 ^ 32

/-- The conversion `%d` of a 32-bit `int` bit pattern (two's complement). -/
def fmt_d (x : Nat) : String :=
  if x % 2 ^ 32 < 2 ^ 31 then Nat.repr (x % 2 ^ 32)
  else "-" ++ Nat.repr (2 ^ 32 - x % 2 ^ 32)

/-! ## Constants of main.c -/

def GST_PLAY_FLAG_VIDEO : Nat := 1 <<< 0
def GST_PLAY_FLAG_AUDIO : Nat := 1 <<< 1
def GST_PLAY_FLAG_TEXT : Nat := 1 <<< 2
def GST_PLAY_FLAG_VIS : Nat := 1 <<< 3
def GST_PLAY_FLAG_SOFT_VOLUME : Nat := 1 <<< 4
def GST_PLAY_FLAG_NATIVE_AUDIO : Nat := 1 <<< 5
def GST_PLAY_FLAG_NATIVE_VIDEO : Nat := 1 <<< 6
def GST_PLAY_FLAG_DOWNLOAD : Nat := 1 <<< 7
def GST_PLAY_FLAG_BUFFERING : Nat := 1 <<< 8
def GST_PLAY_FLAG_DEINTERLACE : Nat := 1 <<< 9
def GST_PLAY_FLAG_SOFT_COLORBALANCE : Nat := 1 <<< 10

def DECODE_PATH_PLAYBIN : Int := 0
def DECODE_PATH_DECODEBIN : Int := 1
def DECODE_PATH_MP4AVI : Int := 2
def DECODE_PATH_MP4QT : Int := 3
def DECODE_PATH_H264QT : Int := 4
def DECODE_PATH_MSMP4AVI : Int := 5

/-- What the build and the running framework provide: `gst_1_0` is the compile-time test
`GST_CHECK_VERSION(1, 0, 0)`, `have_software_color_balance` the answer of
`gstreamer_have_software_color_balance()`. -/
structure Framework where
  gst_1_0 : Bool
  have_software_color_balance : Bool
deriving DecidableEq, Repr

/-- Modelled from the spec: the configuration store, which is not part of main.c (a store
with getters and setters for the video-only flag, the current video and audio sink names,
software volume, software colour balance and quit-on-stream-end).  A getter
(`config_get_current_video_sink`, `config_get_current_audio_sink`, `config_video_only`,
`config_software_volume`, `config_software_color_balance`) reads a field, a setter
(`config_set_video_only`, `config_set_current_video_sink`, `config_set_current_audio_sink`,
`config_set_quit_on_stream_end`) replaces it. -/
structure Config where
  video_sink : String
  audio_sink : String
  video_only : Bool
  software_volume : Bool
  software_color_balance : Bool
  quit_on_stream_end : Bool
deriving DecidableEq, Repr

/-- Macro `PLAYBIN_STR`, chosen by `GST_CHECK_VERSION(1, 0, 0)`. -/
def PLAYBIN_STR (fw : Framework) : String :=
  if fw.gst_1_0 then "playbin" else "playbin2"

/-- Macro `DECODEBIN_STR`, chosen by `GST_CHECK_VERSION(1, 0, 0)`. -/
def DECODEBIN_STR (fw : Framework) : String :=
  if fw.gst_1_0 then "decodebin" else "decodebin2"

/-! ## main_create_pipeline -/

/-- Local `adjusted_video_sink` of `main_create_pipeline`. -/
def adjusted_video_sink (cfg : Config) : String :=
  if cfg.video_sink = "ximagesink" then "videoconvert ! ximagesink" else cfg.video_sink

/-- Buffer `audio_pipeline` of `main_create_pipeline` after its two `sprintf`s. -/
def audio_pipeline (cfg : Config) : String :=
  let audio_pipeline := "audioconvert ! audioresample ! " ++ cfg.audio_sink
  if cfg.video_only then "" else audio_pipeline

/-- Buffer `source` of `main_create_pipeline`. -/
def source (uri video_title_filename : String) : String :=
  if strstr uri "file://" then "filesrc location=" ++ video_title_filename
  else "dataurisrc uri=" ++ uri

/-- Size passed to `malloc` for the description buffer `s`. -/
def description_buffer_size (cfg : Config) (uri : String) : Nat :=
  uri.length + cfg.audio_sink.length + cfg.video_sink.length + 256

/-- The value `x != y` of C: 1 or 0. -/
def c_ne (x y : Int) : Nat :=
  if x ≠ y then 1 else 0

/-- The guard `decode_path != DECODE_PATH_DECODEBIN & decode_path != DECODE_PATH_PLAYBIN`
as C parses it: `!=` binds tighter than `&`, and the `if` tests the result against 0. -/
def named_path_guard (decode_path : Int) : Bool :=
  (c_ne decode_path DECODE_PATH_DECODEBIN &&& c_ne decode_path DECODE_PATH_PLAYBIN) ≠ 0

/-- The playbin branch's `flags` at the point where it is formatted. -/
def playbin_flags (fw : Framework) (cfg : Config) : Nat :=
  let default_flags := GST_PLAY_FLAG_VIDEO ||| GST_PLAY_FLAG_AUDIO |||
    GST_PLAY_FLAG_TEXT |||
    GST_PLAY_FLAG_DEINTERLACE ||| GST_PLAY_FLAG_SOFT_VOLUME |||
    GST_PLAY_FLAG_SOFT_COLORBALANCE
  let flags := default_flags
  let flags :=
    if cfg.video_only then flags &&& int_not ( GST_PLAY_FLAG_AUDIO ||| GST_PLAY_FLAG_SOFT_VOLUME)
    else flags
  let flags :=
    if !cfg.software_volume then flags &&& int_not GST_PLAY_FLAG_SOFT_VOLUME else flags
  if fw.gst_1_0 then
    if fw.have_software_color_balance then
      if !cfg.software_color_balance then flags &&& int_not GST_PLAY_FLAG_SOFT_COLORBALANCE
      else flags
    else flags &&& int_not GST_PLAY_FLAG_SOFT_COLORBALANCE
  else flags &&& int_not GST_PLAY_FLAG_SOFT_COLORBALANCE

/-- What a call of `main_create_pipeline` leaves behind: the returned buffer `s`
(`none` when no `sprintf` wrote to it), the last value given to
`gstreamer_inform_playbin_used`, the two globals, and the window title. -/
structure PipelineResult where
  description : Option String
  playbin_used : Bool
  current_uri : String
  current_video_title_filename : String
  window_title : String
deriving DecidableEq, Repr

/-- The text formatted into `s`, by the branch that `decode_path` selects. -/
def pipeline_text (fw : Framework) (cfg : Config) (decode_path : Int)
    (uri video_title_filename : String) : Option String :=
  let source := source uri video_title_filename
  if named_path_guard decode_path then
    let glue := if !cfg.video_only then "demuxer. ! queue ! " else ""
    if decode_path = DECODE_PATH_MSMP4AVI then
      some (source ++ " ! " ++
        "avidemux name=demuxer  demuxer. ! " ++
        "queue !" ++
        "avdec_msmpeg4v2 ! " ++
        "queue !" ++
        adjusted_video_sink cfg ++ "  " ++ glue ++ audio_pipeline cfg)
    else if decode_path = DECODE_PATH_MP4AVI then
      some (source ++ " ! avidemux name=demuxer  " ++
        "demuxer. ! queue ! avdec_mpeg4 ! " ++ adjusted_video_sink cfg ++ "  " ++
        glue ++ audio_pipeline cfg)
    else if decode_path = DECODE_PATH_MP4QT then
      some (source ++ " ! qtdemux name=demuxer  " ++
        "demuxer. ! queue ! avdec_mpeg4 ! " ++ adjusted_video_sink cfg ++ "  " ++
        glue ++ audio_pipeline cfg)
    else if decode_path = DECODE_PATH_H264QT then
      some (source ++ " ! qtdemux name=demuxer  " ++
        "demuxer. ! queue ! avdec_h264 ! " ++ adjusted_video_sink cfg ++ "  " ++
        glue ++ audio_pipeline cfg)
    else none
  else if decode_path = DECODE_PATH_DECODEBIN then
    let glue := if !cfg.video_only then "decoder. ! queue !" else ""
    -- four conversions for five arguments: `audio_pipeline` is evaluated and ignored
    some (source ++ " ! " ++ DECODEBIN_STR fw ++ " name=decoder  decoder. ! queue ! " ++
      " " ++ video_title_filename ++ "  " ++ adjusted_video_sink cfg ++ " " ++ glue)
  else
    let audio_sink := if cfg.video_only then "fakesink" else cfg.audio_sink
    let flags_str := " flags=" ++ fmt_d (playbin_flags fw cfg)
    some (PLAYBIN_STR fw ++ " name=playbin uri=" ++ uri ++ " video-sink=" ++
      cfg.video_sink ++ " audio-sink=" ++ audio_sink ++ flags_str)

/-- Function `main_create_pipeline`: the returned description with what the call leaves in
the globals, the framework and the window. -/
def main_create_pipeline (fw : Framework) (cfg : Config) (decode_path : Int)
    (uri video_title_filename : String) : PipelineResult :=
  { description := pipeline_text fw cfg decode_path uri video_title_filename
    playbin_used :=
      !named_path_guard decode_path && !decide (decode_path = DECODE_PATH_DECODEBIN)
    current_uri := uri
    current_video_title_filename := video_title_filename
    window_title := "gstplay " ++ video_title_filename }

/-! ## main_create_uri -/

/-- How a call ends: it returns a value, the process ends with `exit(code)`, or the
call passes a null pointer to `strlen`, after which C defines no behaviour. -/
inductive Outcome (α : Type) where
  | returns (a : α)
  | exits (code : Int)
  | undefined
deriving DecidableEq, Repr

/-- The file system as main.c meets it.  `fopen_rb name` is `none` when
`fopen(name, "rb")` returns `NULL`; otherwise it is the opened stream, given by the value
of `feof(f)` after each `fread`: `feof k` is the value after call number `k + 1`.  A
regular file of `n` blocks has `feof k = true` from `k = n` on; a directory, on which
`fread` fails, and a stream without end have `feof k = false` for every `k`.
`getcwd` is the result of `getcwd(NULL, 0)`, `none` for `NULL`. -/
structure FileSystem where
  fopen_rb : String → Option (Nat → Bool)
  getcwd : Option String

/-- The read loop of `check_and_preload_file`, `for (;;) { fread(...); if (feof(f))
break; }`, entered after `reads` calls of `fread`; the result of `fread` is not looked
at.  The result is the number of `fread` calls when the loop is left, `none` when it is
not left within `fuel` rounds. -/
def preload_loop (feof : Nat → Bool) : Nat → Nat → Option Nat
  | 0, _ => none
  | fuel + 1, reads =>
    if feof reads then some (reads + 1) else preload_loop feof fuel (reads + 1)

/-- Function `check_and_preload_file`: `exits 1` is `exit(1)`, `returns k` a return after
`k` calls of `fread`, `none` a read loop not left within `fuel` rounds. -/
def check_and_preload_file (fuel : Nat) (fs : FileSystem) (filename : String)
    (preload : Bool) : Option (Outcome Nat) :=
  match fs.fopen_rb filename with
  | none => some (.exits 1)
  | some feof =>
    if !preload then some (.returns 0)
    else (preload_loop feof fuel 0).map .returns

/-- Function `main_create_uri`: the pair `(*_uri, *_video_title_filename)` it returns, or
how else the call ends; `none` when the read loop is not left within `fuel` rounds. -/
def main_create_uri (fuel : Nat) (fs : FileSystem) (preload_file : Bool)
    (filespec : String) : Option (Outcome (String × String)) :=
  if strstr filespec "://" then
    some (.returns (filespec, filespec))
  else
    let video_title_filename := filespec
    match check_and_preload_file fuel fs video_title_filename preload_file with
    | none => none
    | some (.exits code) => some (.exits code)
    | some .undefined => some .undefined
    | some (.returns _) =>
      let cwd := fs.getcwd
      let cwdstr := if video_title_filename.data.head? = some '/' then some "" else cwd
      match cwdstr with
      | none => some .undefined
      | some cwdstr =>
        some (.returns ("file://" ++ cwdstr ++ "/" ++ video_title_filename,
          video_title_filename))

/-! ## Option parsing in main -/

/-- The test `isspace` of the C locale. -/
def isspace (c : Char) : Bool :=
  c = ' ' || c = '\t' || c = '\n' || c = '\x0b' || c = '\x0c' || c = '\r'

/-- Value of a run of leading decimal digits. -/
def atoi_digits (acc : Nat) : List Char → Nat
  | [] => acc
  | c :: cs =>
    if c.isDigit then atoi_digits (acc * 10 + (c.toNat - '0'.toNat)) cs else acc

/-- The conversion of a `long` to `int`: the low 32 bits, two's complement. -/
def long_to_int (x : Int) : Int :=
  (x + 2 ^ 31) % 2 ^ 32 - 2 ^ 31

/-- The C library's `atoi` as glibc has it, `(int) strtol(s, NULL, 10)`: white space,
an optional sign, the leading digits, clamped to the range of `long` and cut to `int`. -/
def atoi (s : String) : Int :=
  let v : Int :=
    match s.data.dropWhile isspace with
    | '-' :: ds => - (atoi_digits 0 ds : Int)
    | '+' :: ds => (atoi_digits 0 ds : Int)
    | ds => (atoi_digits 0 ds : Int)
  long_to_int (max (-(2 ^ 63)) (min (2 ^ 63 - 1) v))

/-- The test `strcasecmp(a, b) == 0`. -/
def strcasecmp_eq (a b : String) : Bool :=
  a.data.map Char.toLower = b.data.map Char.toLower

/-- The command line settings of main.c (its file-scope statics) and the configuration
store. -/
structure Options where
  full_screen : Bool
  decode_path : Int
  preload_file : Bool
  verbose : Bool
  console_mode : Bool
  width : Int
  height : Int
  config : Config
deriving DecidableEq, Repr

/-- Outcome of one pass through the body of the option loop, entered with
`argi < argc`: `advance1` and `advance2` are `argi++; continue` and
`argi += 2; continue` with the updated settings, `ret code` is `return code` from
`main`, `brk` the final `break`. -/
inductive Step where
  | advance1 (st : Options)
  | advance2 (st : Options)
  | ret (code : Int)
  | brk
deriving DecidableEq, Repr

/-- One pass through the loop body: `arg` is `argv[argi]`, `rest` is what follows it, so
that `argi + 1 < argc` says `rest` is not empty. -/
def option_step (st : Options) (arg : String) (rest : List String) : Step :=
  match strcasecmp_eq arg "--width", rest with
  | true, v :: _ =>
    let width := atoi v
    if width ≤ 0 ∨ width > 4095 then .ret 1 else .advance2 { st with width := width }
  | _, _ =>
  match strcasecmp_eq arg "--height", rest with
  | true, v :: _ =>
    let height := atoi v
    if height ≤ 0 ∨ height > 4095 then .ret 1 else .advance2 { st with height := height }
  | _, _ =>
  if strcasecmp_eq arg "--fullscreen" then .advance1 { st with full_screen := true }
  else if strcasecmp_eq arg "--videoonly" then
    .advance1 { st with config := { st.config with video_only := true } }
  else if strcasecmp_eq arg "--decodebin" then
    .advance1 { st with decode_path := DECODE_PATH_DECODEBIN }
  else if strcasecmp_eq arg "--mp4avi" then
    .advance1 { st with decode_path := DECODE_PATH_MP4AVI }
  else if strcasecmp_eq arg "--mp4qt" then
    .advance1 { st with decode_path := DECODE_PATH_MP4QT }
  else if strcasecmp_eq arg "--h264qt" then
    .advance1 { st with decode_path := DECODE_PATH_H264QT }
  else if strcasecmp_eq arg "--msmp4avi" then
    .advance1 { st with decode_path := DECODE_PATH_MSMP4AVI }
  else if strcasecmp_eq arg "--preload" then .advance1 { st with preload_file := true }
  else
  match strcasecmp_eq arg "--videosink", rest with
  | true, v :: _ => .advance2 { st with config := { st.config with video_sink := v } }
  | _, _ =>
  match strcasecmp_eq arg "--audiosink", rest with
  | true, v :: _ => .advance2 { st with config := { st.config with audio_sink := v } }
  | _, _ =>
  if strcasecmp_eq arg "--verbose" then .advance1 { st with verbose := true }
  else if strcasecmp_eq arg "--help" || strcasecmp_eq arg "--options" then .ret 0
  else if strcasecmp_eq arg "--quit" then
    .advance1 { st with config := { st.config with quit_on_stream_end := true } }
  else if strcasecmp_eq arg "--fbdev2sink" then
    if !st.console_mode then .ret 1
    else .advance1 { st with config := { st.config with video_sink := "fbdev2sink" } }
  else if strcasecmp_eq arg "--directfb" then
    if !st.console_mode then .ret 1
    else .advance1 { st with config := { st.config with video_sink := "dfbvideosink" } }
  else if strcasecmp_eq arg "--nogui" then
    .advance1 { st with console_mode := true,
                        config := { st.config with quit_on_stream_end := true } }
  else if arg.data.head? = some '-' then .ret 1
  else .brk

/-- How the option loop ends: `exit code` is a `return code` from inside the loop,
`done st rest` is the loop left with settings `st` and `rest` the arguments from
`argv[argi]` on. -/
inductive Parsed where
  | exit (code : Int)
  | done (st : Options) (rest : List String)
deriving DecidableEq, Repr

/-- The option loop of `main` on the arguments from `argv[argi]` on. -/
def process_options (st : Options) : List String → Parsed
  | [] => .done st []
  | arg :: rest =>
    match option_step st arg rest with
    | .ret code => .exit code
    | .brk => .done st (arg :: rest)
    | .advance1 st1 => process_options st1 rest
    | .advance2 st2 =>
      match rest with
      | [] => .done st2 []
      | _ :: rest2 => process_options st2 rest2

/-! ## Session teardown -/

/-- A call that leaves main.c for the framework, the GUI, the reactor loop or the
terminal.  `destroy_pipeline` records whether a session existed when it was called. -/
inductive Effect where
  | print (text : String)
  | gui_show_error_message (message details : String)
  | destroy_pipeline (session_existed : Bool)
  | main_loop_quit
  | main_loop_run_returned
  | source_remove
  | main_loop_unref
deriving DecidableEq, Repr

/-- The state the teardown code acts on: whether a session exists, whether the reactor
loop has been asked to quit, and the calls made so far. -/
structure World where
  session : Bool
  quit_requested : Bool
  trace : List Effect
deriving DecidableEq, Repr

/-- Modelled from the spec: `gstreamer_no_pipeline`, which is not part of main.c (the
framework's "no pipeline currently exists" predicate). -/
def gstreamer_no_pipeline (w : World) : Bool :=
  !w.session

/-- Modelled from the spec: `gstreamer_destroy_pipeline`, which is not part of main.c
(destroy the session). -/
def gstreamer_destroy_pipeline (w : World) : World :=
  { w with session := false, trace := w.trace ++ [Effect.destroy_pipeline w.session] }

/-- GLib's `g_main_loop_quit`. -/
def g_main_loop_quit (w : World) : World :=
  { w with quit_requested := true, trace := w.trace ++ [Effect.main_loop_quit] }

/-- Record one call in the trace. -/
def emit (e : Effect) (w : World) : World :=
  { w with trace := w.trace ++ [e] }

/-- Function `intr_handler`: the world it leaves and its return value. -/
def intr_handler (w : World) : World × Bool :=
  let w := emit (.print "gstplay: Interrupt.\n") w
  let w := if !gstreamer_no_pipeline w then gstreamer_destroy_pipeline w else w
  let w := g_main_loop_quit w
  (w, false)

/-- Function `main_show_error_message`; `description` is what
`gstreamer_get_pipeline_description()` returns. -/
def main_show_error_message (console_mode : Bool) (message details description : String)
    (w : World) : World :=
  if !console_mode then
    emit (.gui_show_error_message message details) w
  else
    let w := emit (.print ("gstplay: error: " ++ message ++ "\nDetails:\n" ++ details ++ "\n")) w
    let w := if description.length > 0 then emit (.print ("Pipeline: " ++ description ++ "\n")) w
             else w
    g_main_loop_quit w

/-- The end of `main`, entered in the world in which `g_main_loop_run` returns: the
world it leaves and the exit code. -/
def main_after_loop (console_mode : Bool) (w : World) : World × Int :=
  let w := emit .main_loop_run_returned w
  let w := if !gstreamer_no_pipeline w then gstreamer_destroy_pipeline w else w
  let w := if console_mode then emit .source_remove w else w
  let w := emit .main_loop_unref w
  (w, 0)

/-- The last lines of `main`, from the call of `gstreamer_run_pipeline` on.  The
framework's part is a parameter: `run_pipeline` is the effect and result of
`gstreamer_run_pipeline`, `main_loop_run` what happens while `g_main_loop_run` runs. -/
def main_tail (console_mode : Bool) (description : String)
    (run_pipeline : World → Bool × World) (main_loop_run : World → World)
    (w : World) : World × Int :=
  let r := run_pipeline w
  let w := if !r.1 then
      main_show_error_message console_mode "Pipeline parse problem." "" description r.2
    else r.2
  let w := main_loop_run w
  main_after_loop console_mode w

/-- Does every request to quit the loop, and every return of the loop, in the list come
after a destruction of an existing session?  `seen` says one has been passed. -/
def shutdown_after_destroy (seen : Bool) : List Effect → Bool
  | [] => true
  | .destroy_pipeline existed :: es => shutdown_after_destroy (seen || existed) es
  | .main_loop_quit :: es => seen && shutdown_after_destroy seen es
  | .main_loop_run_returned :: es => seen && shutdown_after_destroy seen es
  | _ :: es => shutdown_after_destroy seen es

/-- Number of calls of `gstreamer_destroy_pipeline` in a trace. -/
def destroy_count : List Effect → Nat
  | [] => 0
  | .destroy_pipeline _ :: es => destroy_count es + 1
  | _ :: es => destroy_count es

/-! ## Words of the specification -/

/-- The guard as the specification reads it, with the logical conjunction. -/
def logical_and_guard (decode_path : Int) : Bool :=
  decide (decode_path ≠ DECODE_PATH_DECODEBIN) && decide (decode_path ≠ DECODE_PATH_PLAYBIN)

/-- Bit positions of the flags value in the specification's words: the base set video,
audio, text, deinterlace, software volume, software colour balance, without audio and
software volume when video only is active, without software volume when the configuration
disables it, without software colour balance when the configuration disables it or the
framework lacks the capability. -/
def spec_flag_bits (video_only software_volume software_color_balance capability : Bool) :
    List Nat :=
  [0, 1, 2, 9, 4, 10].filter fun b =>
    !(video_only && (b == 1 || b == 4)) &&
    !(!software_volume && b == 4) &&
    !((!software_color_balance || !capability) && b == 10)

/-- The flags value of the specification. -/
def spec_flags (video_only software_volume software_color_balance capability : Bool) : Nat :=
  ((spec_flag_bits video_only software_volume software_color_balance capability).map
    (2 ^ ·)).sum

/-- Does the framework have software colour balance: the build is against GStreamer 1.0
and the framework reports the capability. -/
def capability (fw : Framework) : Bool :=
  fw.gst_1_0 && fw.have_software_color_balance

/-- The decimal numeral of an integer, as it is typed on the command line. -/
def decimal (n : Int) : String :=
  if 0 ≤ n then Nat.repr n.toNat else "-" ++ Nat.repr (-n).toNat

/-- The text of the description before the video sink name. -/
def video_sink_before (fw : Framework) (cfg : Config) (decode_path : Int)
    (uri video_title_filename : String) : String :=
  let convert := if cfg.video_sink = "ximagesink" then "videoconvert ! " else ""
  if decode_path = DECODE_PATH_PLAYBIN then
    PLAYBIN_STR fw ++ " name=playbin uri=" ++ uri ++ " video-sink="
  else if decode_path = DECODE_PATH_DECODEBIN then
    source uri video_title_filename ++ " ! " ++ DECODEBIN_STR fw ++
      " name=decoder  decoder. ! queue !  " ++ video_title_filename ++ "  " ++ convert
  else if decode_path = DECODE_PATH_MP4AVI then
    source uri video_title_filename ++
      " ! avidemux name=demuxer  demuxer. ! queue ! avdec_mpeg4 ! " ++ convert
  else if decode_path = DECODE_PATH_MP4QT then
    source uri video_title_filename ++
      " ! qtdemux name=demuxer  demuxer. ! queue ! avdec_mpeg4 ! " ++ convert
  else if decode_path = DECODE_PATH_H264QT then
    source uri video_title_filename ++
      " ! qtdemux name=demuxer  demuxer. ! queue ! avdec_h264 ! " ++ convert
  else
    source uri video_title_filename ++
      " ! avidemux name=demuxer  demuxer. ! queue !avdec_msmpeg4v2 ! queue !" ++ convert

/-- The text of the description after the video sink name. -/
def video_sink_after (fw : Framework) (cfg : Config) (decode_path : Int) : String :=
  if decode_path = DECODE_PATH_PLAYBIN then
    " audio-sink=" ++ (if cfg.video_only then "fakesink" else cfg.audio_sink) ++
      " flags=" ++ fmt_d (playbin_flags fw cfg)
  else if decode_path = DECODE_PATH_DECODEBIN then
    if cfg.video_only then " " else " decoder. ! queue !"
  else if cfg.video_only then "  "
  else "  demuxer. ! queue ! audioconvert ! audioresample ! " ++ cfg.audio_sink

/-- The text of the description before the audio sink name, with video only off and
outside the decodebin path. -/
def audio_sink_before (fw : Framework) (cfg : Config) (decode_path : Int)
    (uri video_title_filename : String) : String :=
  video_sink_before fw cfg decode_path uri video_title_filename ++ cfg.video_sink ++
    (if decode_path = DECODE_PATH_PLAYBIN then " audio-sink="
     else "  demuxer. ! queue ! audioconvert ! audioresample ! ")

/-- The text of the description after the audio sink name, with video only off and
outside the decodebin path. -/
def audio_sink_after (fw : Framework) (cfg : Config) (decode_path : Int) : String :=
  if decode_path = DECODE_PATH_PLAYBIN then " flags=" ++ fmt_d (playbin_flags fw cfg)
  else ""

/-- A sink name without its last character. -/
def without_last (name : String) : String :=
  String.mk name.data.dropLast

/-- A sink name without its first character. -/
def without_first (name : String) : String :=
  String.mk name.data.tail

/-! ## Sample inputs -/

def sample_config : Config :=
  { video_sink := "autovideosink", audio_sink := "autoaudiosink", video_only := false,
    software_volume := true, software_color_balance := true, quit_on_stream_end := false }

def sample_framework : Framework :=
  { gst_1_0 := true, have_software_color_balance := true }

def sample_options : Options :=
  { full_screen := false, decode_path := DECODE_PATH_PLAYBIN, preload_file := false,
    verbose := false, console_mode := false, width := 0, height := 0,
    config := sample_config }

/-- A file system with the regular files "movie.mp4" and "/a" of five blocks, the
endless stream "/dev/zero", and the working directory "/home/u". -/
def sample_fs : FileSystem :=
  { fopen_rb := fun name =>
      if name = "movie.mp4" ∨ name = "/a" then some (fun k => decide (5 ≤ k))
      else if name = "/dev/zero" then some (fun _ => false)
      else none,
    getcwd := some "/home/u" }

/-- The file system `sample_fs` after the working directory has been removed. -/
def sample_fs_no_cwd : FileSystem :=
  { sample_fs with getcwd := none }

def sample_world : World :=
  { session := true, quit_requested := false, trace := [] }

/-- A locator with a scheme, 309 characters long. -/
def long_uri : String :=
  "http://h/" ++ String.mk (List.replicate 300 'a')

/-! ## Flags of the playbin path -/

theorem fmt_d_small (x : Nat) (h : x < 2 ^ 31) : fmt_d x = Nat.repr x := by
  have h1 : x % 2 ^ 32 = x := Nat.mod_eq_of_lt (by omega)
  unfold fmt_d
  rw [h1, if_pos h]

theorem playbin_flags_eq_spec (fw : Framework) (cfg : Config) :
    playbin_flags fw cfg =
      spec_flags cfg.video_only cfg.software_volume cfg.software_color_balance
        (capability fw) := by
  obtain ⟨g, hc⟩ := fw
  obtain ⟨vs, as, vo, sv, cb, q⟩ := cfg
  cases g <;> cases hc <;> cases vo <;> cases sv <;> cases cb <;>
    simp only [playbin_flags, capability, Bool.and_true, Bool.and_false, Bool.not_true,
      Bool.not_false, if_true, if_false, Bool.false_eq_true] <;> decide

theorem spec_flags_le (vo sv cb cap : Bool) : spec_flags vo sv cb cap ≤ 1559 := by
  cases vo <;> cases sv <;> cases cb <;> cases cap <;> decide

/-- C2: on the playbin path the text after " flags=" is the decimal rendering of the base
set 1559 with audio and software volume cleared under video only, software volume cleared
when the configuration disables it, and software colour balance cleared when the
configuration disables it or the capability is absent; the audio bit is never set under
video only and the colour balance bit never without the capability. -/
theorem playbin_flags_emitted (fw : Framework) (cfg : Config)
    (uri video_title_filename : String) :
    (main_create_pipeline fw cfg DECODE_PATH_PLAYBIN uri video_title_filename).description =
      some (PLAYBIN_STR fw ++ " name=playbin uri=" ++ uri ++ " video-sink=" ++
        cfg.video_sink ++ " audio-sink=" ++
        (if cfg.video_only then "fakesink" else cfg.audio_sink) ++ " flags=" ++
        Nat.repr (spec_flags cfg.video_only cfg.software_volume cfg.software_color_balance
          (capability fw))) ∧
    spec_flags false true true true = 1559 ∧
    (cfg.video_only = true →
      (spec_flags cfg.video_only cfg.software_volume cfg.software_color_balance
        (capability fw)).testBit 1 = false) ∧
    (capability fw = false →
      (spec_flags cfg.video_only cfg.software_volume cfg.software_color_balance
        (capability fw)).testBit 10 = false) := by
  refine ⟨?_, by decide, ?_, ?_⟩
  · have hg : named_path_guard DECODE_PATH_PLAYBIN = false := by decide
    have hd : ¬ (DECODE_PATH_PLAYBIN = DECODE_PATH_DECODEBIN) := by decide
    have hf : fmt_d (playbin_flags fw cfg) =
        Nat.repr (spec_flags cfg.video_only cfg.software_volume cfg.software_color_balance
          (capability fw)) := by
      rw [playbin_flags_eq_spec]
      exact fmt_d_small _ (lt_of_le_of_lt (spec_flags_le _ _ _ _) (by decide))
    simp only [main_create_pipeline, pipeline_text, hg, hd, hf, if_false, Bool.false_eq_true,
      String.append_assoc]
  · intro h
    rw [h]
    cases cfg.software_volume <;> cases cfg.software_color_balance <;>
      cases capability fw <;> decide
  · intro h
    rw [h]
    cases cfg.video_only <;> cases cfg.software_volume <;>
      cases cfg.software_color_balance <;> decide

theorem playbin_flags_emitted_witness :
    ({ sample_config with video_only := true }).video_only = true ∧
    (spec_flags true true true (capability sample_framework)).testBit 1 = false :=
  ⟨rfl, (playbin_flags_emitted sample_framework { sample_config with video_only := true }
    "file:///home/u/movie.mp4" "movie.mp4").2.2.1 rfl⟩

/-! ## Locator and title -/

theorem preload_loop_leaves (feof : Nat → Bool) (k : Nat) :
    ∀ reads fuel, feof (reads + k) = true → k + 1 ≤ fuel →
      ∃ n, preload_loop feof fuel reads = some n := by
  induction k with
  | zero =>
    intro reads fuel he hf
    obtain ⟨f, rfl⟩ : ∃ f, fuel = f + 1 := ⟨fuel - 1, by omega⟩
    rw [Nat.add_zero] at he
    exact ⟨reads + 1, by rw [preload_loop, if_pos he]⟩
  | succ k ih =>
    intro reads fuel he hf
    obtain ⟨f, rfl⟩ : ∃ f, fuel = f + 1 := ⟨fuel - 1, by omega⟩
    rw [preload_loop]
    split
    · exact ⟨_, rfl⟩
    · exact ih (reads + 1) f (by rw [← he]; congr 1; omega) (by omega)

theorem preload_loop_never (feof : Nat → Bool) (h : ∀ k, feof k = false) :
    ∀ fuel reads, preload_loop feof fuel reads = none := by
  intro fuel
  induction fuel with
  | zero => intro reads; rfl
  | succ f ih =>
    intro reads
    rw [preload_loop, h reads]
    exact ih (reads + 1)

/-- With the file opened and, under preloading, a stream that reaches its end, the
check returns for all fuel from some bound on. -/
theorem check_returns (fs : FileSystem) (preload_file : Bool) (filename : String)
    (feof : Nat → Bool) (ho : fs.fopen_rb filename = some feof)
    (he : preload_file = true → ∃ k, feof k = true) :
    ∃ fuel0, ∀ fuel, fuel0 ≤ fuel →
      ∃ n, check_and_preload_file fuel fs filename preload_file = some (.returns n) := by
  cases preload_file with
  | false =>
    exact ⟨0, fun fuel _ => ⟨0, by simp [check_and_preload_file, ho]⟩⟩
  | true =>
    obtain ⟨k, hk⟩ := he rfl
    refine ⟨k + 1, fun fuel hf => ?_⟩
    obtain ⟨n, hn⟩ := preload_loop_leaves feof k 0 fuel (by rw [Nat.zero_add]; exact hk) hf
    exact ⟨n, by simp [check_and_preload_file, ho, hn]⟩

/-- The result of `main_create_uri` on a scheme-less input once the check returns. -/
theorem main_create_uri_of_check (fuel : Nat) (fs : FileSystem) (preload_file : Bool)
    (filespec : String) (n : Nat) (hs : strstr filespec "://" = false)
    (hc : check_and_preload_file fuel fs filespec preload_file = some (.returns n)) :
    main_create_uri fuel fs preload_file filespec =
      match (if filespec.data.head? = some '/' then some "" else fs.getcwd) with
      | none => some .undefined
      | some cwdstr => some (.returns ("file://" ++ cwdstr ++ "/" ++ filespec, filespec)) := by
  simp only [main_create_uri, hs, hc, Bool.false_eq_true, if_false]

/-- C3, as the claim states it, fails: with preloading on, an input that can be opened
but whose stream never reports its end keeps main_create_uri in the read loop for
every fuel; and a relative input after the working directory is gone makes it pass the
null result of getcwd to strlen. -/
theorem openable_input_no_locator_counterexample :
    strstr "/dev/zero" "://" = false ∧ (sample_fs.fopen_rb "/dev/zero").isSome = true ∧
    (∀ fuel, main_create_uri fuel sample_fs true "/dev/zero" = none) ∧
    strstr "movie.mp4" "://" = false ∧ (sample_fs_no_cwd.fopen_rb "movie.mp4").isSome = true ∧
    (∀ fuel, main_create_uri fuel sample_fs_no_cwd false "movie.mp4" = some .undefined) := by
  refine ⟨by decide, by decide, ?_, by decide, by decide, ?_⟩
  · intro fuel
    have h : check_and_preload_file fuel sample_fs "/dev/zero" true = none := by
      have ho : sample_fs.fopen_rb "/dev/zero" = some (fun _ => false) := rfl
      simp [check_and_preload_file, ho, preload_loop_never _ (fun _ => rfl)]
    have hs : strstr "/dev/zero" "://" = false := by decide
    simp only [main_create_uri, hs, h, Bool.false_eq_true, if_false]
  · intro fuel
    rfl

/-- C3, amended: an input without "://" whose file can be opened, whose stream reaches
its end if preloading is on, and for which getcwd succeeds if the path is relative, gets
from main_create_uri a locator that starts with "file://" and a title equal to the
input, for all fuel from some bound on; an input with "://" is locator and title. -/
theorem main_create_uri_contract (fs : FileSystem) (preload_file : Bool) (filespec : String) :
    (∀ feof, strstr filespec "://" = false → fs.fopen_rb filespec = some feof →
      (preload_file = true → ∃ k, feof k = true) →
      (filespec.data.head? ≠ some '/' → fs.getcwd ≠ none) →
      ∃ fuel0 uri, "file://".data <+: uri.data ∧
        ∀ fuel, fuel0 ≤ fuel →
          main_create_uri fuel fs preload_file filespec = some (.returns (uri, filespec))) ∧
    (strstr filespec "://" = true →
      ∀ fuel, main_create_uri fuel fs preload_file filespec =
        some (.returns (filespec, filespec))) := by
  constructor
  · intro feof hs ho he hc
    obtain ⟨fuel0, hf⟩ := check_returns fs preload_file filespec feof ho he
    by_cases ha : filespec.data.head? = some '/'
    · refine ⟨fuel0, "file://" ++ "" ++ "/" ++ filespec, by simp [String.append_assoc],
        fun fuel hfuel => ?_⟩
      obtain ⟨n, hn⟩ := hf fuel hfuel
      rw [main_create_uri_of_check fuel fs preload_file filespec n hs hn, if_pos ha]
    · obtain ⟨cwd, hcwd⟩ := Option.ne_none_iff_exists'.mp (hc ha)
      refine ⟨fuel0, "file://" ++ cwd ++ "/" ++ filespec, by simp [String.append_assoc],
        fun fuel hfuel => ?_⟩
      obtain ⟨n, hn⟩ := hf fuel hfuel
      rw [main_create_uri_of_check fuel fs preload_file filespec n hs hn, if_neg ha, hcwd]
  · intro hs fuel
    simp [main_create_uri, hs]

theorem main_create_uri_contract_witness :
    (∃ fuel0 uri, "file://".data <+: uri.data ∧
      ∀ fuel, fuel0 ≤ fuel →
        main_create_uri fuel sample_fs true "movie.mp4" =
          some (.returns (uri, "movie.mp4"))) ∧
    (∀ fuel, main_create_uri fuel sample_fs true "http://host/clip.avi" =
      some (.returns ("http://host/clip.avi", "http://host/clip.avi"))) :=
  ⟨(main_create_uri_contract sample_fs true "movie.mp4").1 (fun k => decide (5 ≤ k))
      (by decide) rfl (fun _ => ⟨5, by decide⟩) (fun _ => by decide),
    (main_create_uri_contract sample_fs true "http://host/clip.avi").2 (by decide)⟩

/-- C4, as the claim states it, fails: for the absolute path "/a" the locator is
"file:////a", not "file://" followed by the path; an input that cannot be opened ends
the process with exit code 1 and gets no locator; with preloading on, a stream that
never reports its end keeps the call in the read loop for every fuel; and a relative
input after the working directory is gone leaves the behaviour undefined. -/
theorem absolute_path_locator_counterexample :
    (∀ fuel, main_create_uri fuel sample_fs false "/a" =
      some (.returns ("file:////a", "/a"))) ∧
    "file:////a" ≠ "file://" ++ "/a" ∧
    (∀ fuel, main_create_uri fuel sample_fs false "/missing" = some (.exits 1)) ∧
    (∀ fuel, main_create_uri fuel sample_fs true "/dev/zero" = none) ∧
    (∀ fuel, main_create_uri fuel sample_fs_no_cwd false "movie.mp4" = some .undefined) := by
  refine ⟨fun fuel => rfl, by decide, fun fuel => rfl, ?_, fun fuel => rfl⟩
  intro fuel
  have h : check_and_preload_file fuel sample_fs "/dev/zero" true = none := by
    have ho : sample_fs.fopen_rb "/dev/zero" = some (fun _ => false) := rfl
    simp [check_and_preload_file, ho, preload_loop_never _ (fun _ => rfl)]
  have hs : strstr "/dev/zero" "://" = false := by decide
  simp only [main_create_uri, hs, h, Bool.false_eq_true, if_false]

/-- C4, amended: for a scheme-less input that can be opened, whose stream reaches its
end if preloading is on, the locator is "file://", then nothing for an absolute path
and the working directory, which getcwd has to deliver, for a relative one, then "/",
then the input; so an absolute path follows "file:///".  The result stands for all fuel
from some bound on. -/
theorem scheme_less_locator (fs : FileSystem) (preload_file : Bool) (filespec : String)
    (feof : Nat → Bool)
    (hs : strstr filespec "://" = false) (ho : fs.fopen_rb filespec = some feof)
    (he : preload_file = true → ∃ k, feof k = true) :
    (filespec.data.head? = some '/' →
      ∃ fuel0, ∀ fuel, fuel0 ≤ fuel →
        main_create_uri fuel fs preload_file filespec =
          some (.returns ("file://" ++ "/" ++ filespec, filespec))) ∧
    (∀ cwd, filespec.data.head? ≠ some '/' → fs.getcwd = some cwd →
      ∃ fuel0, ∀ fuel, fuel0 ≤ fuel →
        main_create_uri fuel fs preload_file filespec =
          some (.returns ("file://" ++ cwd ++ "/" ++ filespec, filespec))) := by
  obtain ⟨fuel0, hf⟩ := check_returns fs preload_file filespec feof ho he
  constructor
  · intro ha
    refine ⟨fuel0, fun fuel hfuel => ?_⟩
    obtain ⟨n, hn⟩ := hf fuel hfuel
    rw [main_create_uri_of_check fuel fs preload_file filespec n hs hn, if_pos ha]
    simp
  · intro cwd hr hcwd
    refine ⟨fuel0, fun fuel hfuel => ?_⟩
    obtain ⟨n, hn⟩ := hf fuel hfuel
    rw [main_create_uri_of_check fuel fs preload_file filespec n hs hn, if_neg hr, hcwd]

theorem scheme_less_locator_witness :
    (∃ fuel0, ∀ fuel, fuel0 ≤ fuel →
      main_create_uri fuel sample_fs true "/a" =
        some (.returns ("file://" ++ "/" ++ "/a", "/a"))) ∧
    (∃ fuel0, ∀ fuel, fuel0 ≤ fuel →
      main_create_uri fuel sample_fs true "movie.mp4" =
        some (.returns ("file://" ++ "/home/u" ++ "/" ++ "movie.mp4", "movie.mp4"))) :=
  ⟨(scheme_less_locator sample_fs true "/a" (fun k => decide (5 ≤ k)) (by decide)
      rfl (fun _ => ⟨5, by decide⟩)).1 (by decide),
    (scheme_less_locator sample_fs true "movie.mp4" (fun k => decide (5 ≤ k)) (by decide)
      rfl (fun _ => ⟨5, by decide⟩)).2 "/home/u" (by decide) (by decide)⟩

/-! ## Width and height options -/

theorem option_step_width (st : Options) (v : String) (rest : List String) :
    option_step st "--width" (v :: rest) =
      if atoi v ≤ 0 ∨ atoi v > 4095 then .ret 1
      else .advance2 { st with width := atoi v } := by
  have hw : strcasecmp_eq "--width" "--width" = true := by decide
  unfold option_step
  rw [hw]

theorem option_step_height (st : Options) (v : String) (rest : List String) :
    option_step st "--height" (v :: rest) =
      if atoi v ≤ 0 ∨ atoi v > 4095 then .ret 1
      else .advance2 { st with height := atoi v } := by
  have hh : strcasecmp_eq "--height" "--width" = false := by decide
  have hh2 : strcasecmp_eq "--height" "--height" = true := by decide
  unfold option_step
  rw [hh, hh2]

/-- With the value string converting to `atoi v`, the loop body stores it and goes on
exactly when it lies in 1..4095, and otherwise main returns 1. -/
theorem width_height_step (st : Options) (v : String) (rest : List String) :
    (option_step st "--width" (v :: rest) = .advance2 { st with width := atoi v } ↔
      1 ≤ atoi v ∧ atoi v ≤ 4095) ∧
    (¬ (1 ≤ atoi v ∧ atoi v ≤ 4095) →
      option_step st "--width" (v :: rest) = .ret 1 ∧
      process_options st ("--width" :: v :: rest) = .exit 1) ∧
    (1 ≤ atoi v ∧ atoi v ≤ 4095 →
      process_options st ("--width" :: v :: rest) =
        process_options { st with width := atoi v } rest) ∧
    (option_step st "--height" (v :: rest) = .advance2 { st with height := atoi v } ↔
      1 ≤ atoi v ∧ atoi v ≤ 4095) ∧
    (¬ (1 ≤ atoi v ∧ atoi v ≤ 4095) →
      option_step st "--height" (v :: rest) = .ret 1 ∧
      process_options st ("--height" :: v :: rest) = .exit 1) ∧
    (1 ≤ atoi v ∧ atoi v ≤ 4095 →
      process_options st ("--height" :: v :: rest) =
        process_options { st with height := atoi v } rest) ∧
    atoi "4095" = 4095 ∧ atoi "4096" = 4096 ∧ atoi "0" = 0 := by
  have sw := option_step_width st v rest
  have sh := option_step_height st v rest
  by_cases hr : atoi v ≤ 0 ∨ atoi v > 4095
  · have hn : ¬ (1 ≤ atoi v ∧ atoi v ≤ 4095) := by omega
    rw [if_pos hr] at sw sh
    refine ⟨?_, ?_, ?_, ?_, ?_, ?_, by decide, by decide, by decide⟩
    · rw [sw]; simp [hn]
    · intro _; exact ⟨sw, by rw [process_options, sw]⟩
    · intro h; exact absurd h hn
    · rw [sh]; simp [hn]
    · intro _; exact ⟨sh, by rw [process_options, sh]⟩
    · intro h; exact absurd h hn
  · have hn : 1 ≤ atoi v ∧ atoi v ≤ 4095 := by omega
    rw [if_neg hr] at sw sh
    refine ⟨?_, ?_, ?_, ?_, ?_, ?_, by decide, by decide, by decide⟩
    · rw [sw]; simp [hn]
    · intro h; exact absurd hn h
    · intro _; rw [process_options, sw]
    · rw [sh]; simp [hn]
    · intro h; exact absurd hn h
    · intro _; rw [process_options, sh]


theorem digitChar_digit (k : Nat) (h : k < 10) :
    (Nat.digitChar k).isDigit = true ∧ (Nat.digitChar k).toNat - '0'.toNat = k := by
  interval_cases k <;> decide

theorem atoi_digits_cons (acc : Nat) (c : Char) (cs : List Char) (h : c.isDigit = true) :
    atoi_digits acc (c :: cs) = atoi_digits (acc * 10 + (c.toNat - '0'.toNat)) cs := by
  rw [atoi_digits, if_pos h]

/-- The digits that `Nat.toDigitsCore` puts in front of `ds`: they are decimal digits,
and reading them continues the value `acc` to `acc * 10 ^ length + n`. -/
theorem toDigitsCore_read : ∀ (fuel n : Nat) (ds : List Char), n < fuel →
    ∃ xs, Nat.toDigitsCore 10 fuel n ds = xs ++ ds ∧ xs ≠ [] ∧
      (∀ c ∈ xs, c.isDigit = true) ∧
      ∀ acc rest, atoi_digits acc (xs ++ rest) = atoi_digits (acc * 10 ^ xs.length + n) rest := by
  intro fuel
  induction fuel with
  | zero => intro n ds h; omega
  | succ f ih =>
    intro n ds h
    have hd := digitChar_digit (n % 10) (Nat.mod_lt _ (by decide))
    rw [Nat.toDigitsCore]
    by_cases h0 : n / 10 = 0
    · simp only [h0, if_true]
      refine ⟨[Nat.digitChar (n % 10)], rfl, by simp, ?_, ?_⟩
      · intro c hc
        rw [List.mem_singleton.mp hc]
        exact hd.1
      · intro acc rest
        rw [List.singleton_append, atoi_digits_cons _ _ _ hd.1, hd.2]
        have : n % 10 = n := by omega
        simp only [List.length_singleton, pow_one, this]
    · simp only [h0, if_false]
      obtain ⟨xs, hx, hne, hdig, hread⟩ := ih (n / 10) (Nat.digitChar (n % 10) :: ds) (by omega)
      refine ⟨xs ++ [Nat.digitChar (n % 10)], by rw [hx]; simp, by simp, ?_, ?_⟩
      · intro c hc
        rcases List.mem_append.mp hc with hc | hc
        · exact hdig c hc
        · rw [List.mem_singleton.mp hc]
          exact hd.1
      · intro acc rest
        rw [List.append_assoc, hread, List.singleton_append, atoi_digits_cons _ _ _ hd.1, hd.2]
        congr 1
        simp only [List.length_append, List.length_singleton, pow_succ]
        have := Nat.div_add_mod n 10
        nlinarith [this]

theorem repr_read (n : Nat) :
    ∃ c cs, (Nat.repr n).data = c :: cs ∧ c.isDigit = true ∧
      atoi_digits 0 (c :: cs) = n := by
  obtain ⟨xs, hx, hne, hdig, hread⟩ := toDigitsCore_read (n + 1) n [] (by omega)
  have hdata : (Nat.repr n).data = xs := by
    show Nat.toDigits 10 n = xs
    rw [Nat.toDigits, hx, List.append_nil]
  cases xs with
  | nil => exact absurd rfl hne
  | cons c cs =>
    refine ⟨c, cs, hdata, hdig c (List.mem_cons_self _ _), ?_⟩
    have := hread 0 []
    rw [List.append_nil] at this
    rw [this]
    simp [atoi_digits]

theorem digit_not_space (c : Char) (h : c.isDigit = true) :
    isspace c = false ∧ c ≠ '-' ∧ c ≠ '+' := by
  refine ⟨?_, ?_, ?_⟩
  · rw [Bool.eq_false_iff]
    intro hs
    simp only [isspace, Bool.or_eq_true, decide_eq_true_eq] at hs
    rcases hs with ((((hs | hs) | hs) | hs) | hs) | hs <;> subst hs <;> exact absurd h (by decide)
  · intro he; subst he; exact absurd h (by decide)
  · intro he; subst he; exact absurd h (by decide)

/-- The conversion of a decimal numeral: the integer clamped to `long` and cut to
`int`. -/
theorem atoi_decimal (n : Int) :
    atoi (decimal n) = long_to_int (max (-(2 ^ 63)) (min (2 ^ 63 - 1) n)) := by
  unfold decimal
  by_cases hn : 0 ≤ n
  · rw [if_pos hn]
    obtain ⟨c, cs, hdata, hdig, hval⟩ := repr_read n.toNat
    obtain ⟨h1, h2, h3⟩ := digit_not_space c hdig
    unfold atoi
    rw [hdata]
    have hdrop : List.dropWhile isspace (c :: cs) = c :: cs := by
      rw [List.dropWhile_cons, h1]
      rfl
    rw [hdrop]
    have hv : (match c :: cs with
        | '-' :: ds => - (atoi_digits 0 ds : Int)
        | '+' :: ds => (atoi_digits 0 ds : Int)
        | ds => (atoi_digits 0 ds : Int)) = n := by
      split
      · next ds heq =>
        injection heq with hc _
        exact absurd hc h2
      · next ds heq =>
        injection heq with hc _
        exact absurd hc h3
      · rw [hval]
        exact Int.toNat_of_nonneg hn
    simp only [hv]
  · rw [if_neg hn]
    obtain ⟨c, cs, hdata, hdig, hval⟩ := repr_read (-n).toNat
    unfold atoi
    have hd : ("-" ++ Nat.repr (-n).toNat).data = '-' :: (Nat.repr (-n).toNat).data := rfl
    rw [hd]
    have hdrop : List.dropWhile isspace ('-' :: (Nat.repr (-n).toNat).data) =
        '-' :: (Nat.repr (-n).toNat).data := by
      rw [List.dropWhile_cons]
      rfl
    rw [hdrop]
    have hv : (-(atoi_digits 0 (Nat.repr (-n).toNat).data : Int)) = n := by
      rw [hdata, hval, Int.toNat_of_nonneg (by omega)]
      omega
    simp only [hv]

theorem long_to_int_id (n : Int) (h : -(2 ^ 31) ≤ n ∧ n < 2 ^ 31) :
    long_to_int (max (-(2 ^ 63)) (min (2 ^ 63 - 1) n)) = n := by
  have h1 : min (2 ^ 63 - 1) n = n := min_eq_right (by omega)
  have h2 : max (-(2 ^ 63)) n = n := max_eq_right (by omega)
  rw [h1, h2]
  unfold long_to_int
  omega


/-- C5, as the claim states it, fails: the integer 4294971391 is not in 1..4095, yet
as the value of --width it is accepted and stored as 4095. -/
theorem width_out_of_int_range_counterexample :
    decimal 4294971391 = "4294971391" ∧
    ¬ (1 ≤ (4294971391 : Int) ∧ (4294971391 : Int) ≤ 4095) ∧
    process_options sample_options ["--width", "4294971391"] =
      .done { sample_options with width := 4095 } [] ∧
    process_options sample_options ["--height", "4294971391"] =
      .done { sample_options with height := 4095 } [] := by
  decide

/-- C5, amended: the value of --width (--height) is converted by atoi, and the loop
body stores the converted int and goes on exactly when it lies in 1..4095, and
otherwise main returns 1.  For every integer n of the range of int given as a decimal
numeral the converted int is n, so n is accepted and stored exactly when
1 <= n <= 4095 and otherwise main returns 1; 4095 is accepted, 4096 and 0 are
rejected.  An integer outside the range of int is converted to its value clamped to
long and cut to 32 bits. -/
theorem width_height_range (st : Options) (n : Int) (rest : List String)
    (hr : -(2 ^ 31) ≤ n ∧ n < 2 ^ 31) :
    atoi (decimal n) = n ∧
    (option_step st "--width" (decimal n :: rest) = .advance2 { st with width := n } ↔
      1 ≤ n ∧ n ≤ 4095) ∧
    (¬ (1 ≤ n ∧ n ≤ 4095) →
      option_step st "--width" (decimal n :: rest) = .ret 1 ∧
      process_options st ("--width" :: decimal n :: rest) = .exit 1) ∧
    (1 ≤ n ∧ n ≤ 4095 →
      process_options st ("--width" :: decimal n :: rest) =
        process_options { st with width := n } rest) ∧
    (option_step st "--height" (decimal n :: rest) = .advance2 { st with height := n } ↔
      1 ≤ n ∧ n ≤ 4095) ∧
    (¬ (1 ≤ n ∧ n ≤ 4095) →
      option_step st "--height" (decimal n :: rest) = .ret 1 ∧
      process_options st ("--height" :: decimal n :: rest) = .exit 1) ∧
    (1 ≤ n ∧ n ≤ 4095 →
      process_options st ("--height" :: decimal n :: rest) =
        process_options { st with height := n } rest) ∧
    (∀ v : String,
      (option_step st "--width" (v :: rest) = .advance2 { st with width := atoi v } ↔
        1 ≤ atoi v ∧ atoi v ≤ 4095) ∧
      (¬ (1 ≤ atoi v ∧ atoi v ≤ 4095) →
        process_options st ("--width" :: v :: rest) = .exit 1) ∧
      (option_step st "--height" (v :: rest) = .advance2 { st with height := atoi v } ↔
        1 ≤ atoi v ∧ atoi v ≤ 4095) ∧
      (¬ (1 ≤ atoi v ∧ atoi v ≤ 4095) →
        process_options st ("--height" :: v :: rest) = .exit 1)) ∧
    (∀ m : Int, atoi (decimal m) = long_to_int (max (-(2 ^ 63)) (min (2 ^ 63 - 1) m))) ∧
    decimal 4095 = "4095" ∧ decimal 4096 = "4096" ∧ decimal 0 = "0" := by
  have ha : atoi (decimal n) = n := by rw [atoi_decimal, long_to_int_id n hr]
  have hstep := width_height_step st (decimal n) rest
  rw [ha] at hstep
  obtain ⟨s1, s2, s3, s4, s5, s6, _⟩ := hstep
  refine ⟨ha, s1, s2, s3, s4, s5, s6, ?_, atoi_decimal, by decide, by decide, by decide⟩
  intro v
  obtain ⟨t1, t2, _, t4, t5, _⟩ := width_height_step st v rest
  exact ⟨t1, fun h => (t2 h).2, t4, fun h => (t5 h).2⟩

theorem width_height_range_witness :
    process_options sample_options ["--width", "4095", "--height", "4095"] =
      .done { sample_options with width := 4095, height := 4095 } [] ∧
    process_options sample_options ["--width", "4096"] = .exit 1 ∧
    process_options sample_options ["--width", "0"] = .exit 1 ∧
    process_options sample_options ["--height", "4096"] = .exit 1 :=
  ⟨by
      have h1 := (width_height_range sample_options 4095 ["--height", "4095"]
        (by decide)).2.2.2.1 (by decide)
      have h2 := (width_height_range { sample_options with width := 4095 } 4095 []
        (by decide)).2.2.2.2.2.2.1 (by decide)
      have hd : decimal 4095 = "4095" := by decide
      rw [hd] at h1 h2
      rw [h1, h2]; decide,
    by
      have h := ((width_height_range sample_options 4096 [] (by decide)).2.2.1
        (by decide)).2
      have hd : decimal 4096 = "4096" := by decide
      rw [hd] at h
      exact h,
    by
      have h := ((width_height_range sample_options 0 [] (by decide)).2.2.1
        (by decide)).2
      have hd : decimal 0 = "0" := by decide
      rw [hd] at h
      exact h,
    by
      have h := ((width_height_range sample_options 4096 [] (by decide)).2.2.2.2.2.1
        (by decide)).2
      have hd : decimal 4096 = "4096" := by decide
      rw [hd] at h
      exact h⟩

/-! ## The guard of the decode path dispatch -/

theorem guard_eq_logical (d : Int) : named_path_guard d = logical_and_guard d := by
  unfold named_path_guard logical_and_guard c_ne
  by_cases h1 : d = DECODE_PATH_DECODEBIN <;> by_cases h0 : d = DECODE_PATH_PLAYBIN <;>
    simp [h1, h0]

/-- C8, as the claim states it, fails: no value of decode_path makes the guard written
with the bitwise conjunction choose another branch than the logical conjunction. -/
theorem bitwise_guard_counterexample :
    ¬ ∃ d : Int, named_path_guard d ≠ logical_and_guard d := by
  rintro ⟨d, hd⟩
  exact hd (guard_eq_logical d)

/-- C8, amended: for every value of decode_path the guard written with the bitwise
conjunction chooses the branch the logical conjunction chooses; the description stays
unwritten exactly for the values outside the six decode paths, which pass the guard and
match no arm of the chain of tests inside it. -/
theorem unmatched_decode_path_unwritten (fw : Framework) (cfg : Config) (d : Int)
    (uri video_title_filename : String) :
    named_path_guard d = logical_and_guard d ∧
    ((main_create_pipeline fw cfg d uri video_title_filename).description = none ↔
      (d < 0 ∨ 5 < d)) ∧
    ((d < 0 ∨ 5 < d) → named_path_guard d = true) := by
  refine ⟨guard_eq_logical d, ?_, ?_⟩
  · rw [main_create_pipeline]
    simp only [pipeline_text, guard_eq_logical, logical_and_guard, DECODE_PATH_PLAYBIN,
      DECODE_PATH_DECODEBIN, DECODE_PATH_MP4AVI, DECODE_PATH_MP4QT, DECODE_PATH_H264QT,
      DECODE_PATH_MSMP4AVI]
    by_cases h0 : d = 0
    · subst h0; simp
    by_cases h1 : d = 1
    · subst h1; simp
    by_cases h2 : d = 2
    · subst h2; simp
    by_cases h3 : d = 3
    · subst h3; simp
    by_cases h4 : d = 4
    · subst h4; simp
    by_cases h5 : d = 5
    · subst h5; simp
    simp [h0, h1, h2, h3, h4, h5]
    omega
  · intro h
    rw [guard_eq_logical]
    simp only [logical_and_guard, DECODE_PATH_PLAYBIN, DECODE_PATH_DECODEBIN]
    have h0 : d ≠ 0 := by omega
    have h1 : d ≠ 1 := by omega
    simp [h0, h1]

theorem unmatched_decode_path_unwritten_witness :
    named_path_guard 6 = true ∧
    (main_create_pipeline sample_framework sample_config 6 "file:///home/u/movie.mp4"
      "movie.mp4").description = none :=
  ⟨(unmatched_decode_path_unwritten sample_framework sample_config 6
      "file:///home/u/movie.mp4" "movie.mp4").2.2 (by decide),
    (unmatched_decode_path_unwritten sample_framework sample_config 6
      "file:///home/u/movie.mp4" "movie.mp4").2.1.mpr (by decide)⟩

/-! ## Occurrences of the sink names -/

theorem count_list_pos (pat s : List Char) (h : pat <:+: s) : 1 ≤ count_list pat s := by
  induction s with
  | nil =>
    have hp : pat = [] := List.infix_nil.mp h
    subst hp
    decide
  | cons c cs ih =>
    rcases List.infix_cons_iff.mp h with hpre | hin
    · have hb : pat.isPrefixOf (c :: cs) = true := List.isPrefixOf_iff_prefix.mpr hpre
      simp only [count_list, hb, if_true]
      omega
    · have := ih hin
      simp only [count_list]
      omega

theorem count_list_cons (pat : List Char) (c : Char) (cs : List Char) :
    count_list pat (c :: cs) =
      (if pat.isPrefixOf (c :: cs) then 1 else 0) + count_list pat cs := rfl

theorem count_list_zero (pat s : List Char) (h : ¬ pat <:+: s) : count_list pat s = 0 := by
  induction s with
  | nil =>
    have hb : pat.isPrefixOf [] = false := by
      rw [Bool.eq_false_iff]
      intro hp
      exact h (List.isPrefixOf_iff_prefix.mp hp).isInfix
    simp only [count_list, hb, Bool.false_eq_true, if_false]
  | cons c cs ih =>
    have hb : pat.isPrefixOf (c :: cs) = false := by
      rw [Bool.eq_false_iff]
      intro hp
      exact h (List.isPrefixOf_iff_prefix.mp hp).isInfix
    have hc : ¬ pat <:+: cs := fun hin => h (List.infix_cons_iff.mpr (Or.inr hin))
    simp only [count_list, hb, Bool.false_eq_true, if_false, ih hc]

theorem count_list_zero_iff (pat s : List Char) : count_list pat s = 0 ↔ ¬ pat <:+: s := by
  constructor
  · intro h hin
    have := count_list_pos pat s hin
    omega
  · exact count_list_zero pat s

theorem count_list_nil (s : List Char) : count_list [] s = s.length + 1 := by
  induction s with
  | nil => rfl
  | cons c cs ih =>
    simp only [count_list, List.isPrefixOf, if_true, ih, List.length_cons]
    omega

theorem count_list_append_ge (pat front rest : List Char) :
    count_list pat rest ≤ count_list pat (front ++ rest) := by
  induction front with
  | nil => exact le_refl _
  | cons c cs ih =>
    rw [List.cons_append, count_list_cons]
    omega

/-- No occurrence that starts in `front`: the count is that of `rest`. -/
theorem count_list_append_skip (pat front rest : List Char)
    (h : ¬ pat <:+: front ++ rest.take (pat.length - 1)) :
    count_list pat (front ++ rest) = count_list pat rest := by
  induction front with
  | nil => rfl
  | cons c cs ih =>
    have hne : pat ≠ [] := by
      intro he
      subst he
      exact h List.nil_infix
    have hlen : 0 < pat.length := List.length_pos.mpr hne
    have hb : pat.isPrefixOf (c :: (cs ++ rest)) = false := by
      rw [Bool.eq_false_iff]
      intro hp
      have hp1 : pat <+: (c :: cs) ++ rest := List.isPrefixOf_iff_prefix.mp hp
      have hp2 : pat <+: ((c :: cs) ++ rest).take ((c :: cs).length + (pat.length - 1)) :=
        List.prefix_take_iff.mpr ⟨hp1, by simp only [List.length_cons]; omega⟩
      rw [List.take_append] at hp2
      exact h hp2.isInfix
    have hc : ¬ pat <:+: cs ++ rest.take (pat.length - 1) :=
      fun hin => h (List.infix_cons_iff.mpr (Or.inr hin))
    rw [List.cons_append, count_list_cons, hb, ih hc]
    simp

/-- An occurrence that starts in `front` adds to the count of `rest`. -/
theorem count_list_append_more (pat front rest : List Char) (hne : pat ≠ [])
    (h : pat <:+: front ++ rest.take (pat.length - 1)) :
    count_list pat rest + 1 ≤ count_list pat (front ++ rest) := by
  have hlen : 0 < pat.length := List.length_pos.mpr hne
  induction front with
  | nil =>
    have h1 := h.length_le
    simp only [List.nil_append, List.length_take] at h1
    omega
  | cons c cs ih =>
    rcases List.infix_cons_iff.mp h with hpre | hin
    · have hp : pat <+: c :: (cs ++ rest) :=
        hpre.trans ((List.prefix_append_right_inj (c :: cs)).mpr (List.take_prefix _ rest))
      have hb : pat.isPrefixOf (c :: (cs ++ rest)) = true := List.isPrefixOf_iff_prefix.mpr hp
      have := count_list_append_ge pat cs rest
      rw [List.cons_append, count_list_cons, hb]
      simp only [if_true]
      omega
    · have := ih hin
      rw [List.cons_append, count_list_cons]
      omega

theorem count_list_self_append (pat rest : List Char) (hne : pat ≠ []) :
    count_list pat (pat ++ rest) = 1 + count_list pat (pat.tail ++ rest) := by
  cases pat with
  | nil => exact absurd rfl hne
  | cons c cs =>
    have hb : (c :: cs).isPrefixOf (c :: (cs ++ rest)) = true :=
      List.isPrefixOf_iff_prefix.mpr (List.prefix_append (c :: cs) rest)
    rw [List.cons_append, count_list_cons, hb]
    simp only [if_true, List.tail_cons]

/-- A text put once between `front` and `back` occurs exactly once in the whole exactly
when it is not empty, does not occur in `front` followed by the text without its last
character, and does not occur in the text without its first character followed by
`back`. -/
theorem count_list_insert_eq_one (pat front back : List Char) (hf : front ≠ []) :
    count_list pat (front ++ pat ++ back) = 1 ↔
      pat ≠ [] ∧ count_list pat (front ++ pat.dropLast) = 0 ∧
        count_list pat (pat.tail ++ back) = 0 := by
  have htake : (pat ++ back).take (pat.length - 1) = pat.dropLast := by
    rw [List.take_append_of_le_length (by omega), List.dropLast_eq_take]
  rw [List.append_assoc]
  constructor
  · intro h
    have hne : pat ≠ [] := by
      intro he
      subst he
      rw [count_list_nil] at h
      have : 0 < front.length := List.length_pos.mpr hf
      simp only [List.nil_append, List.length_append] at h
      omega
    have h1 := count_list_pos pat (pat ++ back) (List.prefix_append pat back).isInfix
    have h2 := count_list_self_append pat back hne
    have h3 := count_list_append_ge pat front (pat ++ back)
    refine ⟨hne, ?_, by omega⟩
    rw [count_list_zero_iff]
    intro hin
    have := count_list_append_more pat front (pat ++ back) hne (by rw [htake]; exact hin)
    omega
  · rintro ⟨hne, h1, h2⟩
    rw [count_list_append_skip pat front (pat ++ back)
      (by rw [htake]; exact (count_list_zero_iff _ _).mp h1),
      count_list_self_append pat back hne, h2]

theorem text_playbin (fw : Framework) (cfg : Config) (uri title : String) :
    pipeline_text fw cfg DECODE_PATH_PLAYBIN uri title =
      some (PLAYBIN_STR fw ++ " name=playbin uri=" ++ uri ++ " video-sink=" ++
        cfg.video_sink ++ " audio-sink=" ++
        (if cfg.video_only then "fakesink" else cfg.audio_sink) ++
        (" flags=" ++ fmt_d (playbin_flags fw cfg))) := rfl

theorem text_decodebin (fw : Framework) (cfg : Config) (uri title : String) :
    pipeline_text fw cfg DECODE_PATH_DECODEBIN uri title =
      some (source uri title ++ " ! " ++ DECODEBIN_STR fw ++
        " name=decoder  decoder. ! queue ! " ++ " " ++ title ++ "  " ++
        adjusted_video_sink cfg ++ " " ++
        (if !cfg.video_only then "decoder. ! queue !" else "")) := rfl

theorem text_mp4avi (fw : Framework) (cfg : Config) (uri title : String) :
    pipeline_text fw cfg DECODE_PATH_MP4AVI uri title =
      some (source uri title ++ " ! avidemux name=demuxer  " ++
        "demuxer. ! queue ! avdec_mpeg4 ! " ++ adjusted_video_sink cfg ++ "  " ++
        (if !cfg.video_only then "demuxer. ! queue ! " else "") ++ audio_pipeline cfg) := rfl

theorem text_mp4qt (fw : Framework) (cfg : Config) (uri title : String) :
    pipeline_text fw cfg DECODE_PATH_MP4QT uri title =
      some (source uri title ++ " ! qtdemux name=demuxer  " ++
        "demuxer. ! queue ! avdec_mpeg4 ! " ++ adjusted_video_sink cfg ++ "  " ++
        (if !cfg.video_only then "demuxer. ! queue ! " else "") ++ audio_pipeline cfg) := rfl

theorem text_h264qt (fw : Framework) (cfg : Config) (uri title : String) :
    pipeline_text fw cfg DECODE_PATH_H264QT uri title =
      some (source uri title ++ " ! qtdemux name=demuxer  " ++
        "demuxer. ! queue ! avdec_h264 ! " ++ adjusted_video_sink cfg ++ "  " ++
        (if !cfg.video_only then "demuxer. ! queue ! " else "") ++ audio_pipeline cfg) := rfl

theorem text_msmp4avi (fw : Framework) (cfg : Config) (uri title : String) :
    pipeline_text fw cfg DECODE_PATH_MSMP4AVI uri title =
      some (source uri title ++ " ! " ++ "avidemux name=demuxer  demuxer. ! " ++
        "queue !" ++ "avdec_msmpeg4v2 ! " ++ "queue !" ++
        adjusted_video_sink cfg ++ "  " ++
        (if !cfg.video_only then "demuxer. ! queue ! " else "") ++ audio_pipeline cfg) := rfl

theorem six_paths (d : Int) (h : 0 ≤ d ∧ d ≤ 5) :
    d = DECODE_PATH_PLAYBIN ∨ d = DECODE_PATH_DECODEBIN ∨ d = DECODE_PATH_MP4AVI ∨
    d = DECODE_PATH_MP4QT ∨ d = DECODE_PATH_H264QT ∨ d = DECODE_PATH_MSMP4AVI := by
  simp only [DECODE_PATH_PLAYBIN, DECODE_PATH_DECODEBIN, DECODE_PATH_MP4AVI,
    DECODE_PATH_MP4QT, DECODE_PATH_H264QT, DECODE_PATH_MSMP4AVI]
  omega


theorem occurrences_pos (pat s a m b : String) (hs : s = a ++ m ++ b)
    (h : pat.data <:+: m.data) : 1 ≤ occurrences pat s := by
  apply count_list_pos
  rw [hs]
  simp only [String.data_append]
  exact h.trans (List.infix_append _ _ _)

theorem ne_empty_of_length_pos (s : String) (h : 0 < s.length) : s ≠ "" := by
  intro he
  rw [he] at h
  exact absurd h (by decide)


theorem data_ne_nil (s : String) (h : s ≠ "") : s.data ≠ [] := by
  intro hd
  exact h (String.ext hd)

theorem ne_empty_of_data (s : String) (h : s.data ≠ []) : s ≠ "" := by
  intro he
  subst he
  exact h rfl

theorem occurrences_insert_eq_one (name front back : String) (hf : front ≠ "") :
    occurrences name (front ++ name ++ back) = 1 ↔
      name ≠ "" ∧ occurrences name (front ++ without_last name) = 0 ∧
        occurrences name (without_first name ++ back) = 0 := by
  have h := count_list_insert_eq_one name.data front.data back.data (data_ne_nil front hf)
  simp only [occurrences, without_last, without_first, String.data_append]
  rw [h]
  constructor
  · rintro ⟨h1, h2⟩
    exact ⟨ne_empty_of_data name h1, h2⟩
  · rintro ⟨h1, h2⟩
    exact ⟨data_ne_nil name h1, h2⟩

theorem adjusted_eq (cfg : Config) :
    adjusted_video_sink cfg =
      (if cfg.video_sink = "ximagesink" then "videoconvert ! " else "") ++ cfg.video_sink := by
  unfold adjusted_video_sink
  split
  · next h =>
    rw [h]
    decide
  · rw [String.empty_append]

theorem description_video_shape (fw : Framework) (cfg : Config) (d : Int)
    (uri title : String) (hd : 0 ≤ d ∧ d ≤ 5) :
    pipeline_text fw cfg d uri title =
      some (video_sink_before fw cfg d uri title ++ cfg.video_sink ++
        video_sink_after fw cfg d) := by
  rcases six_paths d hd with h | h | h | h | h | h <;> subst h
  · rw [text_playbin]
    congr 1
    apply String.ext
    simp [video_sink_before, video_sink_after]
  · rw [text_decodebin, adjusted_eq]
    congr 1
    apply String.ext
    cases hv : cfg.video_only <;>
      simp [video_sink_before, video_sink_after, hv, DECODE_PATH_PLAYBIN,
        DECODE_PATH_DECODEBIN]
  · rw [text_mp4avi, adjusted_eq]
    congr 1
    apply String.ext
    cases hv : cfg.video_only <;>
      simp [video_sink_before, video_sink_after, audio_pipeline, hv, DECODE_PATH_PLAYBIN,
        DECODE_PATH_DECODEBIN, DECODE_PATH_MP4AVI]
  · rw [text_mp4qt, adjusted_eq]
    congr 1
    apply String.ext
    cases hv : cfg.video_only <;>
      simp [video_sink_before, video_sink_after, audio_pipeline, hv, DECODE_PATH_PLAYBIN,
        DECODE_PATH_DECODEBIN, DECODE_PATH_MP4AVI, DECODE_PATH_MP4QT]
  · rw [text_h264qt, adjusted_eq]
    congr 1
    apply String.ext
    cases hv : cfg.video_only <;>
      simp [video_sink_before, video_sink_after, audio_pipeline, hv, DECODE_PATH_PLAYBIN,
        DECODE_PATH_DECODEBIN, DECODE_PATH_MP4AVI, DECODE_PATH_MP4QT, DECODE_PATH_H264QT]
  · rw [text_msmp4avi, adjusted_eq]
    congr 1
    apply String.ext
    cases hv : cfg.video_only <;>
      simp [video_sink_before, video_sink_after, audio_pipeline, hv, DECODE_PATH_PLAYBIN,
        DECODE_PATH_DECODEBIN, DECODE_PATH_MP4AVI, DECODE_PATH_MP4QT, DECODE_PATH_H264QT,
        DECODE_PATH_MSMP4AVI]

theorem description_audio_shape (fw : Framework) (cfg : Config) (d : Int)
    (uri title : String) (hv : cfg.video_only = false) (hn : d ≠ DECODE_PATH_DECODEBIN) :
    video_sink_before fw cfg d uri title ++ cfg.video_sink ++ video_sink_after fw cfg d =
      audio_sink_before fw cfg d uri title ++ cfg.audio_sink ++ audio_sink_after fw cfg d := by
  apply String.ext
  by_cases h0 : d = DECODE_PATH_PLAYBIN
  · simp [audio_sink_before, audio_sink_after, video_sink_after, h0, hv]
  · simp [audio_sink_before, audio_sink_after, video_sink_after, h0, hv, hn]

theorem video_sink_before_ne (fw : Framework) (cfg : Config) (d : Int)
    (uri title : String) : video_sink_before fw cfg d uri title ≠ "" := by
  apply ne_empty_of_length_pos
  have h1 : 0 < " video-sink=".length := by decide
  have h2 : 0 < "  ".length := by decide
  have h3 : 0 < " ! avidemux name=demuxer  demuxer. ! queue ! avdec_mpeg4 ! ".length := by
    decide
  have h4 : 0 < " ! qtdemux name=demuxer  demuxer. ! queue ! avdec_mpeg4 ! ".length := by
    decide
  have h5 : 0 < " ! qtdemux name=demuxer  demuxer. ! queue ! avdec_h264 ! ".length := by
    decide
  have h6 : 0 <
      " ! avidemux name=demuxer  demuxer. ! queue !avdec_msmpeg4v2 ! queue !".length := by
    decide
  unfold video_sink_before
  simp only []
  split_ifs <;> simp only [String.length_append] <;> omega

/-- C1, as the claim states it, fails: under video only the playbin path names the audio
sink "fakesink", so a video sink of that name occurs twice; and a sink name that is part
of the file name occurs twice as well. -/
theorem sink_name_occurs_twice_counterexample :
    (main_create_pipeline sample_framework
      { sample_config with video_sink := "fakesink", video_only := true }
      DECODE_PATH_PLAYBIN "file:///home/u/movie.mp4" "movie.mp4").description =
      some ("playbin name=playbin uri=file:///home/u/movie.mp4 video-sink=fakesink " ++
        "audio-sink=fakesink flags=1541") ∧
    occurrences "fakesink" ("playbin name=playbin uri=file:///home/u/movie.mp4 " ++
      "video-sink=fakesink audio-sink=fakesink flags=1541") = 2 ∧
    (main_create_pipeline sample_framework sample_config
      DECODE_PATH_MP4AVI "file:///home/u/autoaudiosink.avi" "autoaudiosink.avi").description =
      some ("filesrc location=autoaudiosink.avi ! avidemux name=demuxer  demuxer. ! queue ! " ++
        "avdec_mpeg4 ! autovideosink  demuxer. ! queue ! audioconvert ! audioresample ! " ++
        "autoaudiosink") ∧
    occurrences "autoaudiosink" ("filesrc location=autoaudiosink.avi ! avidemux " ++
      "name=demuxer  demuxer. ! queue ! avdec_mpeg4 ! autovideosink  demuxer. ! queue ! " ++
      "audioconvert ! audioresample ! autoaudiosink") = 2 := by
  decide

/-- C1, amended: on each of the six decode paths the description is written and is not
empty.  The configured video sink name stands in it once, between video_sink_before and
video_sink_after, so it occurs at least once; it occurs exactly once exactly when the
name is not empty and does not occur a second time by coincidence, that is neither in
the text before it followed by the name without its last character nor in the name
without its first character followed by the text after it.  With video only off the
same holds for the configured audio sink name on every path but decodebin.  With video
only on, audio_pipeline is the empty string. -/
theorem sink_name_occurs_once (fw : Framework) (cfg : Config) (d : Int)
    (uri video_title_filename : String) (hd : 0 ≤ d ∧ d ≤ 5) :
    ∃ s, (main_create_pipeline fw cfg d uri video_title_filename).description = some s ∧
      s ≠ "" ∧
      s = video_sink_before fw cfg d uri video_title_filename ++ cfg.video_sink ++
        video_sink_after fw cfg d ∧
      1 ≤ occurrences cfg.video_sink s ∧
      (occurrences cfg.video_sink s = 1 ↔
        cfg.video_sink ≠ "" ∧
        occurrences cfg.video_sink
          (video_sink_before fw cfg d uri video_title_filename ++
            without_last cfg.video_sink) = 0 ∧
        occurrences cfg.video_sink
          (without_first cfg.video_sink ++ video_sink_after fw cfg d) = 0) ∧
      (cfg.video_only = false → d ≠ DECODE_PATH_DECODEBIN →
        s = audio_sink_before fw cfg d uri video_title_filename ++ cfg.audio_sink ++
          audio_sink_after fw cfg d ∧
        1 ≤ occurrences cfg.audio_sink s ∧
        (occurrences cfg.audio_sink s = 1 ↔
          cfg.audio_sink ≠ "" ∧
          occurrences cfg.audio_sink
            (audio_sink_before fw cfg d uri video_title_filename ++
              without_last cfg.audio_sink) = 0 ∧
          occurrences cfg.audio_sink
            (without_first cfg.audio_sink ++ audio_sink_after fw cfg d) = 0)) ∧
      (cfg.video_only = true → audio_pipeline cfg = "") := by
  have hb := video_sink_before_ne fw cfg d uri video_title_filename
  have hlen : 0 < (video_sink_before fw cfg d uri video_title_filename).length := by
    rcases Nat.eq_zero_or_pos (video_sink_before fw cfg d uri video_title_filename).length
      with h0 | h0
    · exact absurd (String.ext (List.length_eq_zero.mp h0)) hb
    · exact h0
  refine ⟨_, description_video_shape fw cfg d uri video_title_filename hd, ?_, rfl, ?_, ?_,
    ?_, ?_⟩
  · apply ne_empty_of_length_pos
    simp only [String.length_append]
    omega
  · exact occurrences_pos _ _ _ cfg.video_sink _ rfl (List.infix_refl _)
  · exact occurrences_insert_eq_one _ _ _ hb
  · intro hv hn
    have hs := description_audio_shape fw cfg d uri video_title_filename hv hn
    have hab : audio_sink_before fw cfg d uri video_title_filename ≠ "" := by
      apply ne_empty_of_length_pos
      unfold audio_sink_before
      simp only [String.length_append]
      omega
    refine ⟨hs, ?_, ?_⟩
    · exact occurrences_pos _ _ _ cfg.audio_sink _ hs (List.infix_refl _)
    · rw [hs]
      exact occurrences_insert_eq_one _ _ _ hab
  · intro h
    simp [audio_pipeline, h]

theorem sink_name_occurs_once_witness :
    (0 ≤ DECODE_PATH_MP4AVI ∧ DECODE_PATH_MP4AVI ≤ 5) ∧
    ∃ s, (main_create_pipeline sample_framework sample_config DECODE_PATH_MP4AVI
        "file:///home/u/movie.avi" "movie.avi").description = some s ∧
      occurrences "autovideosink" s = 1 ∧ occurrences "autoaudiosink" s = 1 := by
  obtain ⟨s, h1, _, _, _, h5, h6, _⟩ :=
    sink_name_occurs_once sample_framework sample_config DECODE_PATH_MP4AVI
      "file:///home/u/movie.avi" "movie.avi" (by decide)
  exact ⟨by decide, s, h1, h5.mpr (by decide),
    (h6 (by decide) (by decide)).2.2.mpr (by decide)⟩

/-! ## The decodebin path -/

/-- C6 at the failing input: with video only off the decodebin description ends in the
glue "decoder. ! queue !" and has neither the conversion and resample stage nor the audio
sink name; the audio sink never reaches the description of this path. -/
theorem decodebin_drops_audio_branch :
    sample_config.video_only = false ∧
    (main_create_pipeline sample_framework sample_config DECODE_PATH_DECODEBIN
      "file:///home/u/movie.mp4" "movie.mp4").description =
      some ("filesrc location=movie.mp4 ! decodebin name=decoder  decoder. ! queue !  " ++
        "movie.mp4  autovideosink decoder. ! queue !") ∧
    occurrences "autoaudiosink"
      ("filesrc location=movie.mp4 ! decodebin name=decoder  decoder. ! queue !  " ++
        "movie.mp4  autovideosink decoder. ! queue !") = 0 ∧
    occurrences "audioconvert ! audioresample ! "
      ("filesrc location=movie.mp4 ! decodebin name=decoder  decoder. ! queue !  " ++
        "movie.mp4  autovideosink decoder. ! queue !") = 0 ∧
    (∀ (fw : Framework) (cfg : Config) (uri title sink : String),
      (main_create_pipeline fw { cfg with audio_sink := sink } DECODE_PATH_DECODEBIN
        uri title).description =
      (main_create_pipeline fw cfg DECODE_PATH_DECODEBIN uri title).description) := by
  refine ⟨by decide, by decide, by decide, by decide, ?_⟩
  intro fw cfg uri title sink
  rfl

/-! ## The four named decode paths -/

/-- C7, as the claim states it, fails: the MSMP4AVI description is not the MP4AVI
description with the decoder name exchanged, whatever is taken for the text around the
demuxer and decoder names. -/
theorem msmp4avi_differs_counterexample :
    ¬ ∃ p q r : String,
      (main_create_pipeline sample_framework sample_config DECODE_PATH_MSMP4AVI
        "file:///home/u/movie.avi" "movie.avi").description =
        some (p ++ "avidemux" ++ q ++ "avdec_msmpeg4v2" ++ r) ∧
      (main_create_pipeline sample_framework sample_config DECODE_PATH_MP4AVI
        "file:///home/u/movie.avi" "movie.avi").description =
        some (p ++ "avidemux" ++ q ++ "avdec_mpeg4" ++ r) := by
  rintro ⟨p, q, r, h1, h2⟩
  have e1 : ((main_create_pipeline sample_framework sample_config DECODE_PATH_MSMP4AVI
      "file:///home/u/movie.avi" "movie.avi").description.map String.length) =
      some 173 := by decide
  have e2 : ((main_create_pipeline sample_framework sample_config DECODE_PATH_MP4AVI
      "file:///home/u/movie.avi" "movie.avi").description.map String.length) =
      some 163 := by decide
  have a1 : "avidemux".length = 8 := by decide
  have a2 : "avdec_msmpeg4v2".length = 15 := by decide
  have a3 : "avdec_mpeg4".length = 11 := by decide
  rw [h1] at e1
  rw [h2] at e2
  simp only [Option.map_some', Option.some.injEq, String.length_append] at e1 e2
  omega

/-- C7, amended: the descriptions of MP4AVI, MP4QT and H264QT are one text around the
demuxer name (avidemux, qtdemux) and the decoder name (avdec_mpeg4, avdec_h264);
MSMP4AVI has the names avidemux and avdec_msmpeg4v2 in the same start and end, with
"queue !" directly before the decoder and " ! queue !" directly after it. -/
theorem named_paths_share_template (fw : Framework) (cfg : Config)
    (uri video_title_filename : String) :
    ∃ p q r : String,
      (main_create_pipeline fw cfg DECODE_PATH_MP4AVI uri video_title_filename).description =
        some (p ++ "avidemux" ++ q ++ "avdec_mpeg4" ++ " ! " ++ r) ∧
      (main_create_pipeline fw cfg DECODE_PATH_MP4QT uri video_title_filename).description =
        some (p ++ "qtdemux" ++ q ++ "avdec_mpeg4" ++ " ! " ++ r) ∧
      (main_create_pipeline fw cfg DECODE_PATH_H264QT uri video_title_filename).description =
        some (p ++ "qtdemux" ++ q ++ "avdec_h264" ++ " ! " ++ r) ∧
      (main_create_pipeline fw cfg DECODE_PATH_MSMP4AVI uri video_title_filename).description =
        some (p ++ "avidemux" ++ " name=demuxer  demuxer. ! queue !" ++ "avdec_msmpeg4v2" ++
          " ! queue !" ++ r) ∧
      q = " name=demuxer  demuxer. ! queue ! " ∧
      p = source uri video_title_filename ++ " ! " ∧
      r = adjusted_video_sink cfg ++ "  " ++
        (if !cfg.video_only then "demuxer. ! queue ! " else "") ++ audio_pipeline cfg := by
  have s1 : " ! avidemux name=demuxer  " ++ "demuxer. ! queue ! avdec_mpeg4 ! " =
      " ! " ++ ("avidemux" ++ (" name=demuxer  demuxer. ! queue ! " ++
        ("avdec_mpeg4" ++ " ! "))) := by decide
  have s2 : " ! qtdemux name=demuxer  " ++ "demuxer. ! queue ! avdec_mpeg4 ! " =
      " ! " ++ ("qtdemux" ++ (" name=demuxer  demuxer. ! queue ! " ++
        ("avdec_mpeg4" ++ " ! "))) := by decide
  have s3 : " ! qtdemux name=demuxer  " ++ "demuxer. ! queue ! avdec_h264 ! " =
      " ! " ++ ("qtdemux" ++ (" name=demuxer  demuxer. ! queue ! " ++
        ("avdec_h264" ++ " ! "))) := by decide
  have s4 : " ! " ++ ("avidemux name=demuxer  demuxer. ! " ++ ("queue !" ++
      ("avdec_msmpeg4v2 ! " ++ "queue !"))) =
      " ! " ++ ("avidemux" ++ (" name=demuxer  demuxer. ! queue !" ++
        ("avdec_msmpeg4v2" ++ " ! queue !"))) := by decide
  refine ⟨_, _, _, ?_, ?_, ?_, ?_, rfl, rfl, rfl⟩ <;> simp only [main_create_pipeline]
  · rw [text_mp4avi]
    simp only [String.append_assoc]
    rw [← String.append_assoc " ! avidemux name=demuxer  ", s1]
    simp only [String.append_assoc]
  · rw [text_mp4qt]
    simp only [String.append_assoc]
    rw [← String.append_assoc " ! qtdemux name=demuxer  ", s2]
    simp only [String.append_assoc]
  · rw [text_h264qt]
    simp only [String.append_assoc]
    rw [← String.append_assoc " ! qtdemux name=demuxer  ", s3]
    simp only [String.append_assoc]
  · rw [text_msmp4avi]
    have := congrArg (fun t => some (source uri video_title_filename ++ (t ++
      (adjusted_video_sink cfg ++ "  " ++
        (if !cfg.video_only then "demuxer. ! queue ! " else "") ++ audio_pipeline cfg)))) s4
    simpa only [String.append_assoc] using this

/-! ## Length of the description -/

theorem flags_text_length (fw : Framework) (cfg : Config) :
    (fmt_d (playbin_flags fw cfg)).length ≤ 4 := by
  rw [playbin_flags_eq_spec,
    fmt_d_small _ (lt_of_le_of_lt (spec_flags_le _ _ _ _) (by decide))]
  cases cfg.video_only <;> cases cfg.software_volume <;>
    cases cfg.software_color_balance <;> cases capability fw <;> decide

theorem title_length_le (fuel : Nat) (fs : FileSystem) (preload_file : Bool)
    (filespec uri title : String)
    (h : main_create_uri fuel fs preload_file filespec = some (.returns (uri, title))) :
    title.length ≤ uri.length := by
  unfold main_create_uri at h
  by_cases hs : strstr filespec "://" = true
  · rw [if_pos hs] at h
    injection h with h
    injection h with h
    injection h with h1 h2
    subst h1 h2
    exact le_refl _
  · rw [if_neg hs] at h
    simp only [] at h
    split at h
    · exact absurd h (by simp)
    · exact absurd h (by simp)
    · exact absurd h (by simp)
    · split at h
      · exact absurd h (by simp)
      · injection h with h
        injection h with h
        injection h with h1 h2
        subst h1 h2
        simp only [String.length_append]
        omega

theorem source_length_le (uri title : String) (h : title.length ≤ uri.length) :
    (source uri title).length ≤ uri.length + 17 := by
  have h1 : "filesrc location=".length = 17 := by decide
  have h2 : "dataurisrc uri=".length = 15 := by decide
  unfold source
  split <;> simp only [String.length_append] <;> omega

theorem adjusted_length_le (cfg : Config) :
    (adjusted_video_sink cfg).length ≤ cfg.video_sink.length + 15 := by
  unfold adjusted_video_sink
  split
  · next h =>
    rw [h]
    decide
  · omega

theorem audio_pipeline_length_le (cfg : Config) :
    (audio_pipeline cfg).length ≤ cfg.audio_sink.length + 31 := by
  have h1 : "audioconvert ! audioresample ! ".length = 31 := by decide
  have h2 : "".length = 0 := by decide
  unfold audio_pipeline
  split <;> simp only [String.length_append] <;> omega

theorem glue_length_le (cfg : Config) :
    (if !cfg.video_only then "demuxer. ! queue ! " else "").length ≤ 19 := by
  split <;> decide

/-- Outside the decodebin path the text formatted into the description buffer, for a
locator and title that `main_create_uri` produced, is shorter than the buffer. -/
theorem description_fits_outside_decodebin (fuel : Nat) (fs : FileSystem)
    (preload_file : Bool)
    (filespec uri title : String) (fw : Framework) (cfg : Config) (d : Int)
    (hu : main_create_uri fuel fs preload_file filespec = some (.returns (uri, title)))
    (hd : 0 ≤ d ∧ d ≤ 5) (hn : d ≠ DECODE_PATH_DECODEBIN) :
    ∃ s, (main_create_pipeline fw cfg d uri title).description = some s ∧
      s.length < description_buffer_size cfg uri := by
  have hs := source_length_le uri title (title_length_le fuel fs preload_file filespec uri title hu)
  have ha := adjusted_length_le cfg
  have hp := audio_pipeline_length_le cfg
  have hg := glue_length_le cfg
  have hf := flags_text_length fw cfg
  have l1 : " ! ".length = 3 := by decide
  have l2 : "avidemux name=demuxer  demuxer. ! ".length = 34 := by decide
  have l3 : "queue !".length = 7 := by decide
  have l4 : "avdec_msmpeg4v2 ! ".length = 18 := by decide
  have l5 : "  ".length = 2 := by decide
  have l6 : " ! avidemux name=demuxer  ".length = 26 := by decide
  have l7 : "demuxer. ! queue ! avdec_mpeg4 ! ".length = 33 := by decide
  have l8 : " ! qtdemux name=demuxer  ".length = 25 := by decide
  have l9 : "demuxer. ! queue ! avdec_h264 ! ".length = 32 := by decide
  have l10 : " name=playbin uri=".length = 18 := by decide
  have l11 : " video-sink=".length = 12 := by decide
  have l12 : " audio-sink=".length = 12 := by decide
  have l13 : " flags=".length = 7 := by decide
  have l14 : (PLAYBIN_STR fw).length ≤ 8 := by
    unfold PLAYBIN_STR
    split <;> decide
  have l15 : (if cfg.video_only then "fakesink" else cfg.audio_sink).length ≤
      cfg.audio_sink.length + 8 := by
    split
    · have : "fakesink".length = 8 := by decide
      omega
    · omega
  rcases six_paths d hd with h | h | h | h | h | h <;> subst h <;>
    simp only [main_create_pipeline, description_buffer_size]
  · refine ⟨_, text_playbin fw cfg uri title, ?_⟩
    simp only [String.length_append]
    omega
  · exact absurd rfl hn
  · refine ⟨_, text_mp4avi fw cfg uri title, ?_⟩
    simp only [String.length_append]
    omega
  · refine ⟨_, text_mp4qt fw cfg uri title, ?_⟩
    simp only [String.length_append]
    omega
  · refine ⟨_, text_h264qt fw cfg uri title, ?_⟩
    simp only [String.length_append]
    omega
  · refine ⟨_, text_msmp4avi fw cfg uri title, ?_⟩
    simp only [String.length_append]
    omega

/-- C10 at the failing input: on the decodebin path the locator of 309 characters gives
a text of 714 characters for a buffer of 591. -/
theorem decodebin_description_overflows :
    (∀ fuel, main_create_uri fuel sample_fs false long_uri =
      some (.returns (long_uri, long_uri))) ∧
    description_buffer_size sample_config long_uri = 591 ∧
    ∃ s, (main_create_pipeline sample_framework sample_config DECODE_PATH_DECODEBIN
        long_uri long_uri).description = some s ∧
      s.length = 714 ∧ description_buffer_size sample_config long_uri ≤ s.length := by
  refine ⟨fun fuel => ?_, by decide, _, rfl, by decide, by decide⟩
  have hs : strstr long_uri "://" = true := by decide
  simp only [main_create_uri, hs, if_true]

/-! ## Teardown order -/

/-- C9, as the claim states it, fails: the end of main destroys an existing session
after the loop has returned, and main_show_error_message in console mode asks the loop
to quit without destroying the session, which then is destroyed after the loop. -/
theorem destroy_after_loop_counterexample :
    sample_world.session = true ∧
    (main_after_loop true sample_world).1.trace =
      [.main_loop_run_returned, .destroy_pipeline true, .source_remove, .main_loop_unref] ∧
    shutdown_after_destroy false (main_after_loop true sample_world).1.trace = false ∧
    (main_show_error_message true "Pipeline parse problem." "" "" sample_world).session = true ∧
    shutdown_after_destroy false
      (main_show_error_message true "Pipeline parse problem." "" "" sample_world).trace = false ∧
    (main_tail true "" (fun w => (true, { w with session := true }))
      (main_show_error_message true "Internal data flow error." "" "") sample_world).1.trace =
      [.print "gstplay: error: Internal data flow error.\nDetails:\n\n", .main_loop_quit,
        .main_loop_run_returned, .destroy_pipeline true, .source_remove, .main_loop_unref] := by
  decide

/-- C9, amended: on the three paths gstreamer_destroy_pipeline is called only when a
session exists and at most once, so no session is destroyed twice; intr_handler destroys
an existing session before it asks the loop to quit; main_show_error_message asks the
loop to quit and destroys nothing; the end of main destroys an existing session after
the loop has returned. -/
theorem teardown_guarded (w : World) (console_mode : Bool)
    (message details description : String) :
    (∃ added, (intr_handler w).1.trace = w.trace ++ added ∧
      Effect.destroy_pipeline false ∉ added ∧ destroy_count added ≤ 1 ∧
      (destroy_count added = 1 ↔ w.session = true) ∧
      (w.session = true → shutdown_after_destroy false added = true) ∧
      (intr_handler w).1.session = false ∧ (intr_handler w).1.quit_requested = true) ∧
    (∃ added, (main_after_loop console_mode w).1.trace = w.trace ++ added ∧
      Effect.destroy_pipeline false ∉ added ∧ destroy_count added ≤ 1 ∧
      (destroy_count added = 1 ↔ w.session = true) ∧
      (w.session = true →
        added.take 2 = [.main_loop_run_returned, .destroy_pipeline true]) ∧
      (main_after_loop console_mode w).1.session = false) ∧
    (∃ added,
      (main_show_error_message console_mode message details description w).trace =
        w.trace ++ added ∧
      destroy_count added = 0 ∧
      (main_show_error_message console_mode message details description w).session =
        w.session ∧
      (console_mode = true →
        (main_show_error_message console_mode message details description w).quit_requested =
          true)) := by
  obtain ⟨session, quit, trace⟩ := w
  refine ⟨?_, ?_, ?_⟩
  · cases session
    · exact ⟨[.print "gstplay: Interrupt.\n", .main_loop_quit],
        by simp [intr_handler, emit, gstreamer_no_pipeline, g_main_loop_quit],
        by decide, by decide, by simp [destroy_count], by simp [shutdown_after_destroy], rfl, rfl⟩
    · exact ⟨[.print "gstplay: Interrupt.\n", .destroy_pipeline true, .main_loop_quit],
        by simp [intr_handler, emit, gstreamer_no_pipeline, g_main_loop_quit,
          gstreamer_destroy_pipeline],
        by decide, by decide, by simp [destroy_count], by simp [shutdown_after_destroy], rfl, rfl⟩
  · cases session <;> cases console_mode
    · exact ⟨[.main_loop_run_returned, .main_loop_unref],
        by simp [main_after_loop, emit, gstreamer_no_pipeline],
        by decide, by decide, by simp [destroy_count], by simp, rfl⟩
    · exact ⟨[.main_loop_run_returned, .source_remove, .main_loop_unref],
        by simp [main_after_loop, emit, gstreamer_no_pipeline],
        by decide, by decide, by simp [destroy_count], by simp, rfl⟩
    · exact ⟨[.main_loop_run_returned, .destroy_pipeline true, .main_loop_unref],
        by simp [main_after_loop, emit, gstreamer_no_pipeline, gstreamer_destroy_pipeline],
        by decide, by decide, by simp [destroy_count], by simp, rfl⟩
    · exact ⟨[.main_loop_run_returned, .destroy_pipeline true, .source_remove,
          .main_loop_unref],
        by simp [main_after_loop, emit, gstreamer_no_pipeline, gstreamer_destroy_pipeline],
        by decide, by decide, by simp [destroy_count], by simp, rfl⟩
  · cases console_mode
    · exact ⟨[.gui_show_error_message message details],
        by simp [main_show_error_message, emit], rfl, rfl, by intro h; cases h⟩
    · by_cases hl : description.length > 0
      · exact ⟨[.print ("gstplay: error: " ++ message ++ "\nDetails:\n" ++ details ++ "\n"),
            .print ("Pipeline: " ++ description ++ "\n"), .main_loop_quit],
          by simp [main_show_error_message, emit, g_main_loop_quit, hl], rfl, 
          by simp [main_show_error_message, emit, g_main_loop_quit, hl],
          by intro _; simp [main_show_error_message, emit, g_main_loop_quit, hl]⟩
      · exact ⟨[.print ("gstplay: error: " ++ message ++ "\nDetails:\n" ++ details ++ "\n"),
            .main_loop_quit],
          by simp [main_show_error_message, emit, g_main_loop_quit, hl], rfl,
          by simp [main_show_error_message, emit, g_main_loop_quit, hl],
          by intro _; simp [main_show_error_message, emit, g_main_loop_quit, hl]⟩

theorem teardown_guarded_witness :
    sample_world.session = true ∧
    (∃ added, (intr_handler sample_world).1.trace = sample_world.trace ++ added ∧
      Effect.destroy_pipeline false ∉ added ∧ destroy_count added ≤ 1 ∧
      (destroy_count added = 1 ↔ sample_world.session = true) ∧
      (sample_world.session = true → shutdown_after_destroy false added = true) ∧
      (intr_handler sample_world).1.session = false ∧
      (intr_handler sample_world).1.quit_requested = true) :=
  ⟨rfl, (teardown_guarded sample_world true "" "" "").1⟩

end Gstplay
